import Mathlib

/-!
# kt-connect: DNS synchronisation, service redirect and mesh

A shallow embedding of `pkg/kt/command/connect/common.go`,
`pkg/kt/command/forward/common.go`, `pkg/kt/command/mesh.go` and
`pkg/kt/util/collection.go`.

* Go `string` values are Lean `String`s.  Every string operation used by the
  embedded code (`+`, `==`, `strings.HasPrefix`, `strings.Split` on `","`,
  slicing behind the ASCII literal `"hosts"`) only compares against ASCII
  text, so working on characters instead of bytes changes nothing.
* A Go `map[string]string` is a `GoMap`: an association list without
  duplicate keys, built from the empty map by `GoMap.put`.  Go visits the
  entries of a map in an unspecified order; that order is the field
  `rangeOrder` of `Cluster` and of `Kubernetes`, and the theorems hold for
  every order.
* Constants and calls of packages outside the embedded sources (`common`,
  `util`, `dns`, the cluster client, `util.RandomString`) are fields of the
  records `Host`, `Cluster`, `Kubernetes`, `ShadowNames` and `MeshNames`; the
  three spellings of the DNS mode are taken from the specification.
* The cluster client (`cluster.Ins()`) is a record of functions: in one fixed
  cluster state each call is a function of its arguments.
-/

set_option linter.dupNamespace false

namespace KtConnect

/-! ## Go maps -/

/-- A Go `map[string]string`. -/
abbrev GoMap := List (String × String)

namespace GoMap

/-- Map read `m[k]` together with its presence flag. -/
def get : GoMap → String → Option String
  | [], _ => none
  | (k', v') :: t, k => if k' = k then some v' else get t k

/-- Map write `m[k] = v`. -/
def put : GoMap → String → String → GoMap
  | [], k, v => [(k, v)]
  | (k', v') :: t, k, v => if k' = k then (k, v) :: t else (k', v') :: put t k v

/-- The keys of the map. -/
def keys (m : GoMap) : List String := m.map Prod.fst

/-- Number of entries, `len(m)`. -/
def size (m : GoMap) : Nat := m.length

end GoMap

/-! ## Kubernetes objects (the fields the code reads) -/

/-- Entry of `Container.Ports`. -/
structure ContainerPort where
  Name : String
  ContainerPort : Int
  deriving DecidableEq, Repr

/-- Entry of `Pod.Spec.Containers`. -/
structure Container where
  Ports : List ContainerPort
  deriving DecidableEq, Repr

/-- A pod: `Name`, `Status.PodIP`, `Spec.Containers`. -/
structure Pod where
  Name : String
  PodIP : String
  Containers : List Container
  deriving DecidableEq, Repr

/-- The `intstr.IntOrString` struct; its field `Type` (here `Type_`) is
`intstr.Int = 0` or `intstr.String = 1`. -/
structure IntOrString where
  Type_ : Int
  IntVal : Int
  StrVal : String
  deriving DecidableEq, Repr

/-- Entry of `Service.Spec.Ports`. -/
structure ServicePort where
  Port : Int
  TargetPort : IntOrString
  deriving DecidableEq, Repr

/-- A Service: `Name`, `Spec.ClusterIP`, `Spec.Selector`, `Spec.Ports`. -/
structure Service where
  Name : String
  ClusterIP : String
  Selector : GoMap
  Ports : List ServicePort
  deriving DecidableEq, Repr

/-- The cluster client in one fixed cluster state, and the order in which
`range` visits the entries of a map. -/
structure Cluster where
  GetAllServiceInNamespace : String → Except String (List Service)
  GetPodsByLabel : GoMap → String → Except String (List Pod)
  GetService : String → String → Except String Service
  rangeOrder : GoMap → GoMap

/-! ## `getServiceHosts` -/

/-- The inner loop of `getServiceHosts` (lines 111-117): `ip` takes the IP of
each pod in turn, and the loop stops at the first non-empty one, whose pod name
is appended to `podNames`. -/
def podLoop : List Pod → String → List String → String × List String
  | [], ip, podNames => (ip, podNames)
  | p :: ps, _, podNames =>
    if p.PodIP ≠ "" then (p.PodIP, podNames ++ [p.Name]) else podLoop ps p.PodIP podNames

/-- One iteration of the loop over `services.Items` (lines 105-122) on the
state `(hosts, podNames)`. -/
def serviceStep (c : Cluster) (namespace_ : String) (st : GoMap × List String)
    (service : Service) : GoMap × List String :=
  let ip := service.ClusterIP
  if ip = "" ∨ ip = "None" then
    match c.GetPodsByLabel service.Selector namespace_ with
    | .error _ => st
    | .ok pods =>
      if pods.length = 0 then st
      else
        let r := podLoop pods ip st.2
        (st.1.put service.Name r.1, r.2)
  else (st.1.put service.Name ip, st.2)

/-- The function `getServiceHosts`: the table from Service name to IP, and the
names of the pods backing headless Services. -/
def getServiceHosts (c : Cluster) (namespace_ : String) : GoMap × List String :=
  match c.GetAllServiceInNamespace namespace_ with
  | .ok services => services.foldl (serviceStep c namespace_) ([], [])
  | .error _ => ([], [])

/-! ## Strings -/

/-- The Go call `strings.HasPrefix(s, prefix)`. -/
def HasPrefix (s pre : String) : Bool := pre.data.isPrefixOf s.data

/-- The Go slice expression `s[i:j]`, for `i ≤ j ≤ len(s)`. -/
def slice (s : String) (i j : Nat) : String := ⟨(s.data.drop i).take (j - i)⟩

/-- The Go slice expression `s[i:]`, for `i ≤ len(s)`. -/
def sliceFrom (s : String) (i : Nat) : String := ⟨s.data.drop i⟩

/-- Splitting a character list at every `','`. -/
def splitComma : List Char → List (List Char)
  | [] => [[]]
  | c :: cs =>
    if c = ',' then [] :: splitComma cs
    else
      match splitComma cs with
      | [] => [[c]]
      | h :: t => (c :: h) :: t

/-- The Go call `strings.Split(s, ",")`. -/
def Split (s : String) : List String := (splitComma s.data).map String.mk

/-! ## The local machine: calls into package `dns` and constants -/

/-- The calls the code makes into package `dns` and the constants it reads
from packages `util` and `common`; an error result is `some message`. -/
structure Host where
  DumpHosts : GoMap → Option String
  SetNameServer : String → Option String
  SetupLocalDns : String → Int → Option String
  IsWindows : Bool
  AlternativeDnsPort : Int
  StandardDnsPort : Int
  Localhost : String

/-- An externally visible call made by the DNS set-up code, in program order. -/
inductive Effect where
  | DumpHosts (hosts : GoMap)
  | SetNameServer (address : String)
  | SetupLocalDns (shadowPodIp : String) (dnsPort : Int)
  | WatchService (namespace_ : String)
  | WatchPod (namespace_ : String)
  | Sleep (seconds : Nat)
  deriving DecidableEq, Repr

/-- Modelled from the spec: the constant `util.DnsModeHosts`, declared outside
the embedded sources; the grammar of the DNS mode string spells it `hosts`. -/
def DnsModeHosts : String := "hosts"

/-- Modelled from the spec: the constant `util.DnsModePodDns`, declared outside
the embedded sources; the grammar of the DNS mode string spells it `pod-dns`. -/
def DnsModePodDns : String := "pod-dns"

/-- Modelled from the spec: the constant `util.DnsModeLocalDns`, declared outside
the embedded sources; the grammar of the DNS mode string spells it `local-dns`. -/
def DnsModeLocalDns : String := "local-dns"

/-! ## `dumpToHost` and `dumpCurrentNamespaceToHost` -/

/-- Lines 71-77 of `dumpToHost`: the namespaces whose Services are dumped. -/
def namespacesToDump (currentNamespace targetNamespaces : String) : List String :=
  if targetNamespaces ≠ "" then
    (Split targetNamespaces).foldl (fun acc ns => acc ++ [ns]) []
  else [currentNamespace]

/-- Lines 83-87: the body of the loop over `svcToIp` for the entry `(svc, ip)`. -/
def dumpEntry (currentNamespace clusterDomain namespace_ : String) (hosts : GoMap)
    (e : String × String) : GoMap :=
  let hosts1 := if namespace_ = currentNamespace then hosts.put e.1 e.2 else hosts
  let hosts2 := hosts1.put (e.1 ++ "." ++ namespace_) e.2
  hosts2.put (e.1 ++ "." ++ namespace_ ++ ".svc." ++ clusterDomain) e.2

/-- Lines 80-88: the body of the loop over `namespacesToDump`. -/
def dumpNamespace (c : Cluster) (currentNamespace clusterDomain : String) (hosts : GoMap)
    (namespace_ : String) : GoMap :=
  (c.rangeOrder (getServiceHosts c namespace_).1).foldl
    (dumpEntry currentNamespace clusterDomain namespace_) hosts

/-- The value of `hosts` at line 90 of `dumpToHost`. -/
def dumpToHostTable (c : Cluster) (currentNamespace targetNamespaces clusterDomain : String) :
    GoMap :=
  (namespacesToDump currentNamespace targetNamespaces).foldl
    (dumpNamespace c currentNamespace clusterDomain) []

/-- The function `dumpToHost`: the calls it makes and the error it returns. -/
def dumpToHost (c : Cluster) (h : Host)
    (currentNamespace targetNamespaces clusterDomain : String) : List Effect × Option String :=
  let hosts := dumpToHostTable c currentNamespace targetNamespaces clusterDomain
  ([Effect.DumpHosts hosts], h.DumpHosts hosts)

/-- The function `dumpCurrentNamespaceToHost`: the calls it makes, and its two
results (the headless pod names and the error). -/
def dumpCurrentNamespaceToHost (c : Cluster) (h : Host) (currentNamespace : String) :
    List Effect × List String × Option String :=
  let r := getServiceHosts c currentNamespace
  ([Effect.DumpHosts r.1], r.2, h.DumpHosts r.1)

/-! ## `setupDns` -/

/-- The options read through `opt.Get().ConnectOptions`. -/
structure ConnectOptions where
  DnsMode : String
  ClusterDomain : String
  SharedShadow : Bool
  deriving DecidableEq, Repr

/-- The options read through `opt.Get()`. -/
structure Options where
  Namespace : String
  Debug : Bool
  ConnectOptions : ConnectOptions
  deriving DecidableEq, Repr

/-- Lines 19-23 of `setupDns`: the namespace list carried by a `hosts` mode string. -/
def dump2HostsNamespaces (dnsMode : String) : String :=
  let pos := DnsModeHosts.length
  if dnsMode.length > pos + 1 ∧ slice dnsMode pos (pos + 1) = ":" then
    sliceFrom dnsMode (pos + 1)
  else ""

/-- The error of line 64. -/
def invalidDnsMode (dnsMode : String) : String :=
  "invalid dns mode: '" ++ dnsMode ++ "', supportted mode are " ++ DnsModeLocalDns ++ ", " ++
    DnsModePodDns ++ ", " ++ DnsModeHosts

/-- The function `setupDns`: the calls it makes, in order, and the error it
returns (`none` is `nil`).  The two watches are started as goroutines; their
handlers are `onServiceAdd`, `onServiceUpdate` and `onPodUpdate`. -/
def setupDns (c : Cluster) (h : Host) (o : Options) (shadowPodIp : String) :
    List Effect × Option String :=
  let namespace_ := o.Namespace
  if HasPrefix o.ConnectOptions.DnsMode DnsModeHosts then
    dumpToHost c h namespace_ (dump2HostsNamespaces o.ConnectOptions.DnsMode)
      o.ConnectOptions.ClusterDomain
  else if o.ConnectOptions.DnsMode = DnsModePodDns then
    ([Effect.SetNameServer shadowPodIp], h.SetNameServer shadowPodIp)
  else if o.ConnectOptions.DnsMode = DnsModeLocalDns then
    let r := dumpCurrentNamespaceToHost c h namespace_
    match r.2.2 with
    | some err => (r.1, some err)
    | none =>
      let dnsPort := if h.IsWindows then h.StandardDnsPort else h.AlternativeDnsPort
      let started := r.1 ++ [Effect.WatchService namespace_, Effect.WatchPod namespace_,
        Effect.SetupLocalDns shadowPodIp dnsPort]
      match h.SetupLocalDns shadowPodIp dnsPort with
      | some err => (started, some err)
      | none =>
        let address := h.Localhost ++ ":" ++ toString dnsPort
        (started ++ [Effect.SetNameServer address], h.SetNameServer address)
  else ([], some (invalidDnsMode o.ConnectOptions.DnsMode))

/-- The call `util.Contains(obj, target)` for a string and a slice of strings. -/
def Contains (obj : String) : List String → Bool
  | [] => false
  | x :: xs => if x = obj then true else Contains obj xs

/-- The Service-add handler of line 36 on the captured variable `headlessPods`;
`now` and `setupTime` are Unix seconds. -/
def onServiceAdd (c : Cluster) (h : Host) (namespace_ : String) (setupTime now : Int)
    (headlessPods : List String) : List Effect × List String :=
  if now - setupTime > 3 then
    let r := dumpCurrentNamespaceToHost c h namespace_
    (r.1, r.2.1)
  else ([], headlessPods)

/-- The Service-update handler of line 42 on the captured variable `headlessPods`. -/
def onServiceUpdate (c : Cluster) (h : Host) (namespace_ : String)
    (_headlessPods : List String) : List Effect × List String :=
  let r := dumpCurrentNamespaceToHost c h namespace_
  (r.1, r.2.1)

/-- The pod-update handler of line 45 on the captured variable `headlessPods`. -/
def onPodUpdate (c : Cluster) (h : Host) (namespace_ : String) (pod : Pod)
    (headlessPods : List String) : List Effect × List String :=
  if Contains pod.Name headlessPods then
    let r := dumpCurrentNamespaceToHost c h namespace_
    (Effect.Sleep 5 :: r.1, r.2.1)
  else ([], headlessPods)

/-! ## `RedirectService` -/

/-- Lines 16-21: the target of the declared port `remotePort`; `Type_ = -1`
when no declared port has that number. -/
def findTargetPort (ports : List ServicePort) (remotePort : Int) : IntOrString :=
  ports.foldl (fun targetPort p => if p.Port = remotePort then p.TargetPort else targetPort)
    ⟨-1, 0, ""⟩

/-- The inner loop of lines 38-43: the first port of one container with the
given name. -/
def portLoop : List ContainerPort → String → Option Int
  | [], _ => none
  | p :: ps, name => if p.Name = name then some p.ContainerPort else portLoop ps name

/-- The labelled loop of lines 36-44 on the variable `podPort`. -/
def containerLoop : List Container → String → Int → Int
  | [], _, podPort => podPort
  | c :: cs, name, podPort =>
    match portLoop c.Ports name with
    | some port => port
    | none => containerLoop cs name podPort

/-- What `RedirectService` does: it returns an error without forwarding, or it
returns the result of `transmission.SetupPortForwardToLocal` on these arguments. -/
inductive Redirect where
  | error (message : String)
  | SetupPortForwardToLocal (podName : String) (podPort localPort : Int)
  deriving DecidableEq, Repr

/-- The function `RedirectService`; `namespace_` is `opt.Get().Global.Namespace`. -/
def RedirectService (c : Cluster) (namespace_ serviceName : String)
    (localPort remotePort : Int) : Redirect :=
  match c.GetService serviceName namespace_ with
  | .error err => Redirect.error err
  | .ok svc =>
    let targetPort := findTargetPort svc.Ports remotePort
    if targetPort.Type_ = -1 then
      Redirect.error ("port " ++ toString remotePort ++ " not available for service " ++
        serviceName)
    else
      match c.GetPodsByLabel svc.Selector namespace_ with
      | .error err => Redirect.error err
      | .ok [] => Redirect.error ("no pod available for service " ++ serviceName)
      | .ok (pod0 :: _) =>
        let podPort :=
          if targetPort.Type_ = 0 then targetPort.IntVal
          else containerLoop pod0.Containers targetPort.StrVal (-1)
        if podPort = -1 then
          Redirect.error ("port " ++ toString remotePort ++ " not fit for any pod of service " ++
            serviceName)
        else Redirect.SetupPortForwardToLocal pod0.Name podPort localPort

/-! ## Auxiliary notions for the host table -/

/-- A name without a dot; Kubernetes admits no dot in the name of a Service or
of a namespace. -/
abbrev dotFree (s : String) : Prop := '.' ∉ s.data

/-- The writes of `dumpEntry` for one entry of `svcToIp`, in program order. -/
def entryPuts (currentNamespace clusterDomain namespace_ : String) (e : String × String) :
    List (String × String) :=
  (if namespace_ = currentNamespace then [(e.1, e.2)] else []) ++
    [(e.1 ++ "." ++ namespace_, e.2),
      (e.1 ++ "." ++ namespace_ ++ ".svc." ++ clusterDomain, e.2)]

/-- A sequence of map writes. -/
def putAll (m : GoMap) (ps : List (String × String)) : GoMap :=
  ps.foldl (fun acc e => acc.put e.1 e.2) m

/-- The writes of `dumpNamespace`, in program order. -/
def nsPuts (c : Cluster) (currentNamespace clusterDomain namespace_ : String) :
    List (String × String) :=
  (c.rangeOrder (getServiceHosts c namespace_).1).flatMap
    (entryPuts currentNamespace clusterDomain namespace_)


/-! ## The shadow workload of `connect`: `getOrCreateShadow`, `getEnvs`, `getLabels` -/

/-- The Go call `strings.ToLower(s)` on ASCII text, which is what
`util.RandomString` produces. -/
def ToLower (s : String) : String := ⟨s.data.map Char.toLower⟩

/-- The constants of packages `common` and `util` that name the environment
variables and labels of the shadow workload; they are declared outside the
embedded sources. -/
structure ShadowNames where
  EnvVarLocalDomains : String
  EnvVarDnsProtocol : String
  EnvVarLogLevel : String
  ControlBy : String
  KubernetesToolkit : String
  KtRole : String
  RoleConnectShadow : String

/-- The function `getEnvs`; `localDomains` is the result of `dns.GetLocalDomains()`. -/
def getEnvs (n : ShadowNames) (o : Options) (localDomains : String) : GoMap :=
  let envs : GoMap := []
  let envs1 :=
    if localDomains ≠ "" then GoMap.put envs n.EnvVarLocalDomains localDomains else envs
  let envs2 :=
    if o.ConnectOptions.DnsMode = DnsModeLocalDns then GoMap.put envs1 n.EnvVarDnsProtocol "tcp"
    else GoMap.put envs1 n.EnvVarDnsProtocol "udp"
  if o.Debug then GoMap.put envs2 n.EnvVarLogLevel "debug"
  else GoMap.put envs2 n.EnvVarLogLevel "info"

/-- The function `getLabels`. -/
def getLabels (n : ShadowNames) : GoMap :=
  GoMap.put (GoMap.put [] n.ControlBy n.KubernetesToolkit) n.KtRole n.RoleConnectShadow

/-- Lines 129-132 of `getOrCreateShadow`: the name of the shadow workload;
`RandomString` is `util.RandomString` at this call. -/
def shadowPodName (o : Options) (RandomString : Nat → String) : String :=
  let shadowPodName := "kt-connect-shadow-" ++ ToLower (RandomString 5)
  if o.ConnectOptions.SharedShadow then "kt-connect-shadow-daemon" else shadowPodName

/-- The arguments of a call of `GetOrCreateShadow`. -/
structure ShadowRequest where
  name : String
  labels : GoMap
  annotations : GoMap
  envs : GoMap
  deriving DecidableEq, Repr

/-- The function `getOrCreateShadow`: the request it sends to the cluster
client, and its result (`endPointIP`, `podName`, `privateKeyPath`, or the error). -/
def getOrCreateShadow
    (GetOrCreateShadow : ShadowRequest → Except String (String × String × String))
    (n : ShadowNames) (o : Options) (RandomString : Nat → String) (localDomains : String) :
    ShadowRequest × Except String (String × String × String) :=
  let request : ShadowRequest :=
    ⟨shadowPodName o RandomString, getLabels n, [], getEnvs n o localDomains⟩
  match GetOrCreateShadow request with
  | .error err => (request, .error err)
  | .ok r => (request, .ok r)

/-! ## `mesh.go` -/

/-- The constants of package `common` that `mesh.go` reads; they are declared
outside the embedded sources. -/
structure MeshNames where
  ControlBy : String
  KubernetesTool : String
  KTComponent : String
  ComponentMesh : String
  KTName : String
  KTVersion : String
  MeshMethodManual : String
  MeshMethodAuto : String

/-- A Deployment: `GetObjectMeta().GetName()` and `Spec.Selector.MatchLabels`. -/
structure Deployment where
  Name : String
  MatchLabels : GoMap
  deriving DecidableEq, Repr

/-- The options read through `options.MeshOptions`. -/
structure MeshOptions where
  Version : String
  Method : String
  Expose : String
  deriving DecidableEq, Repr

/-- The options written through `options.RuntimeOptions`. -/
structure RuntimeOptions where
  Shadow : String
  SSHCM : String
  deriving DecidableEq, Repr

/-- The fields of `options.DaemonOptions` that `mesh.go` uses. -/
structure DaemonOptions where
  Namespace : String
  MeshOptions : MeshOptions
  RuntimeOptions : RuntimeOptions
  deriving DecidableEq, Repr

/-- The calls of `mesh.go` into `cluster.KubernetesInterface` and into the
shadow created by `connect.Create`, the order in which `range` visits a map,
and `util.RandomString`. -/
structure Kubernetes where
  Deployment : String → String → Except String Deployment
  GetOrCreateShadow : DaemonOptions → ShadowRequest → Except String (String × String)
  Inbound : DaemonOptions → String → String → Option String
  rangeOrder : GoMap → GoMap
  RandomString : Nat → String

/-- A call made by `manualMesh`, in program order. -/
inductive MeshEffect where
  | Deployment (name namespace_ : String)
  | GetOrCreateShadow (request : ShadowRequest)
  | Inbound (expose podName : String)
  deriving DecidableEq, Repr

/-- Lines 145-150 of `getMeshLabels`: the map literal with the four markers. -/
def meshMarkers (n : MeshNames) (workload meshVersion : String) : GoMap :=
  GoMap.put
    (GoMap.put (GoMap.put (GoMap.put [] n.ControlBy n.KubernetesTool) n.KTComponent
      n.ComponentMesh) n.KTName workload)
    n.KTVersion meshVersion

/-- The function `getMeshLabels`; `none` is a nil `app`. -/
def getMeshLabels (n : MeshNames) (rangeOrder : GoMap → GoMap) (workload meshVersion : String)
    (app : Option Deployment) : GoMap :=
  let labels := meshMarkers n workload meshVersion
  match app with
  | none => labels
  | some d => (rangeOrder d.MatchLabels).foldl (fun acc e => acc.put e.1 e.2) labels

/-- The function `getVersion`. -/
def getVersion (k : Kubernetes) (options : DaemonOptions) : String :=
  if options.MeshOptions.Version.length ≠ 0 then options.MeshOptions.Version
  else ToLower (k.RandomString 5)

/-- The function `createShadowAndInbound`: the calls it makes, the options
after it, and the error it returns. -/
def createShadowAndInbound (k : Kubernetes) (shadowPodName : String) (labels : GoMap)
    (options : DaemonOptions) : List MeshEffect × DaemonOptions × Option String :=
  let request : ShadowRequest := ⟨shadowPodName, labels, [], []⟩
  match k.GetOrCreateShadow options request with
  | .error err => ([MeshEffect.GetOrCreateShadow request], options, some err)
  | .ok (podName, sshConfigMapName) =>
    let options1 : DaemonOptions :=
      ⟨options.Namespace, options.MeshOptions, ⟨shadowPodName, sshConfigMapName⟩⟩
    ([MeshEffect.GetOrCreateShadow request,
        MeshEffect.Inbound options1.MeshOptions.Expose podName],
      options1, k.Inbound options1 options1.MeshOptions.Expose podName)

/-- The function `manualMesh`: the calls it makes, the options after it, and
the error it returns. -/
def manualMesh (n : MeshNames) (k : Kubernetes) (deploymentName : String)
    (options : DaemonOptions) : List MeshEffect × DaemonOptions × Option String :=
  match k.Deployment deploymentName options.Namespace with
  | .error err => ([MeshEffect.Deployment deploymentName options.Namespace], options, some err)
  | .ok app =>
    let meshVersion := getVersion k options
    let shadowPodName := app.Name ++ "-kt-" ++ meshVersion
    let labels := getMeshLabels n k.rangeOrder shadowPodName meshVersion (some app)
    let r := createShadowAndInbound k shadowPodName labels options
    (MeshEffect.Deployment deploymentName options.Namespace :: r.1, r.2.1, r.2.2)

/-- The function `autoMesh`. -/
def autoMesh (_n : MeshNames) (_k : Kubernetes) (_deploymentName : String)
    (options : DaemonOptions) : List MeshEffect × DaemonOptions × Option String :=
  ([], options, none)

/-- Lines 70-76 of `Action.Mesh`: the choice of the mesh method. -/
def meshByMethod (n : MeshNames) (k : Kubernetes) (resourceName : String)
    (options : DaemonOptions) : List MeshEffect × DaemonOptions × Option String :=
  if options.MeshOptions.Method = n.MeshMethodManual then manualMesh n k resourceName options
  else if options.MeshOptions.Method = n.MeshMethodAuto then autoMesh n k resourceName options
  else ([], options, some ("invalid mesh method \"" ++ options.MeshOptions.Method ++ "\""))

/-! ## `MapPut` -/

/-- The map objects of the Go heap; a map value is `none` (nil) or the
address of one of them. -/
abbrev MapHeap := List GoMap

/-- What a holder of the map value `m` reads: a nil map reads as the empty map. -/
def readMap (heap : MapHeap) (m : Option Nat) : GoMap :=
  match m with
  | none => []
  | some a => heap.getD a []

/-- The function `MapPut`: the heap after the call.  The parameter `m` is a
copy of the caller's map value; `make` allocates a new map object. -/
def MapPut (heap : MapHeap) (m : Option Nat) (k v : String) : MapHeap :=
  let r : MapHeap × Nat :=
    match m with
    | none => (heap ++ [[]], heap.length)
    | some a => (heap, a)
  r.1.modify (fun obj => obj.put k v) r.2


/-! ## Example cluster states -/

/-- A headless Service `db` selecting the pods with label `app=db`. -/
def dbService : Service := ⟨"db", "None", [("app", "db")], []⟩

/-- A Service `web` with a cluster IP and three declared ports. -/
def webService : Service :=
  ⟨"web", "10.0.0.1", [("app", "web")],
    [⟨8080, ⟨1, 0, "web"⟩⟩, ⟨9000, ⟨0, 9001, ""⟩⟩, ⟨8443, ⟨1, 0, "https"⟩⟩]⟩

/-- A Service `idle` that declares a port and has no backing pod. -/
def idleService : Service := ⟨"idle", "10.0.0.4", [("app", "idle")], [⟨80, ⟨0, 8080, ""⟩⟩]⟩

/-- A Service `api` of the namespace `team-a`. -/
def apiService : Service := ⟨"api", "10.0.0.2", [("app", "api")], []⟩

/-- A cluster with the Services `web` and `db` in `default` and `api` in
`team-a`; of the three pods behind `db` the first has no IP yet. -/
def demoCluster : Cluster where
  GetAllServiceInNamespace := fun ns =>
    if ns = "default" then .ok [webService, dbService]
    else if ns = "team-a" then .ok [apiService]
    else .ok []
  GetPodsByLabel := fun selector _ =>
    if selector = [("app", "db")] then
      .ok [⟨"db-0", "", []⟩, ⟨"db-1", "10.1.0.5", []⟩, ⟨"db-2", "10.1.0.6", []⟩]
    else if selector = [("app", "web")] then
      .ok [⟨"web-0", "10.1.0.7", [⟨[⟨"metrics", 9100⟩]⟩, ⟨[⟨"web", 3000⟩, ⟨"web", 3001⟩]⟩]⟩,
        ⟨"web-1", "10.1.0.8", [⟨[⟨"web", 4000⟩]⟩]⟩]
    else .ok []
  GetService := fun name ns =>
    if ns = "default" ∧ name = "web" then .ok webService
    else if ns = "default" ∧ name = "db" then .ok dbService
    else .error "services not found"
  rangeOrder := List.reverse

/-- The cluster `demoCluster` at a moment when no pod behind `db` has an IP. -/
def pendingCluster : Cluster where
  GetAllServiceInNamespace := demoCluster.GetAllServiceInNamespace
  GetPodsByLabel := fun selector _ =>
    if selector = [("app", "db")] then .ok [⟨"db-0", "", []⟩, ⟨"db-1", "", []⟩]
    else .ok []
  GetService := demoCluster.GetService
  rangeOrder := List.reverse

/-- A cluster whose API server cannot be reached. -/
def downCluster : Cluster where
  GetAllServiceInNamespace := fun _ => .error "connection refused"
  GetPodsByLabel := fun _ _ => .error "connection refused"
  GetService := fun _ _ => .error "connection refused"
  rangeOrder := List.reverse

/-- The cluster `demoCluster` with the Service `idle` added to `default`. -/
def forwardCluster : Cluster where
  GetAllServiceInNamespace := fun ns =>
    if ns = "default" then .ok [webService, dbService, idleService]
    else demoCluster.GetAllServiceInNamespace ns
  GetPodsByLabel := demoCluster.GetPodsByLabel
  GetService := fun name ns =>
    if ns = "default" ∧ name = "idle" then .ok idleService else demoCluster.GetService name ns
  rangeOrder := List.reverse

/-- A local machine on which every call into package `dns` succeeds. -/
def demoHost : Host where
  DumpHosts := fun _ => none
  SetNameServer := fun _ => none
  SetupLocalDns := fun _ _ => none
  IsWindows := false
  AlternativeDnsPort := 10053
  StandardDnsPort := 53
  Localhost := "127.0.0.1"

/-! ## Example data for the shadow workload and for `mesh.go` -/

/-- Names for the environment variables and labels of the connect shadow. -/
def demoShadowNames : ShadowNames :=
  ⟨"KT_LOCAL_DOMAIN", "KT_DNS_PROTOCOL", "KT_LOG_LEVEL", "control-by", "kt", "kt-role",
    "shadow-connect"⟩

/-- Names for the labels and methods of `mesh.go`. -/
def demoMeshNames : MeshNames :=
  ⟨"control-by", "kt", "kt-component", "mesh", "kt-name", "version", "manual", "auto"⟩

/-- A Deployment whose selector carries a label under the key of the version marker. -/
def reviewsDeployment : Deployment := ⟨"reviews", [("app", "reviews"), ("version", "v1")]⟩

/-- A Deployment whose selector shares no key with the markers. -/
def tomcatDeployment : Deployment := ⟨"tomcat", [("app", "tomcat")]⟩

/-- A cluster client for `mesh.go` that knows the Deployments `tomcat` and
`reviews` of `default`. -/
def demoKubernetes : Kubernetes where
  Deployment := fun name ns =>
    if ns = "default" ∧ name = "tomcat" then .ok tomcatDeployment
    else if ns = "default" ∧ name = "reviews" then .ok reviewsDeployment
    else .error "deployments.apps not found"
  GetOrCreateShadow := fun _ request => .ok (request.name ++ "-0", "kt-sshcm-" ++ request.name)
  Inbound := fun _ _ _ => none
  rangeOrder := List.reverse
  RandomString := fun _ => "XkQzP"

/-- Mesh options with a caller-supplied version. -/
def versionedOptions : DaemonOptions := ⟨"default", ⟨"v2", "manual", "8080"⟩, ⟨"", ""⟩⟩

/-- Mesh options without a version, for the method `auto`. -/
def autoOptions : DaemonOptions := ⟨"default", ⟨"", "auto", "8080"⟩, ⟨"", ""⟩⟩

/-- A Service that declares the port 53 twice, and its pod. -/
def dnsService : Service :=
  ⟨"dns", "10.0.0.53", [("app", "dns")], [⟨53, ⟨0, 5353, ""⟩⟩, ⟨53, ⟨0, 5354, ""⟩⟩]⟩

/-- A cluster that serves `dnsService`. -/
def dnsCluster : Cluster where
  GetAllServiceInNamespace := fun _ => .ok [dnsService]
  GetPodsByLabel := fun _ _ => .ok [⟨"dns-0", "10.1.0.53", []⟩]
  GetService := fun _ _ => .ok dnsService
  rangeOrder := id


/-! # Theorems -/

/-! ## Go maps -/

namespace GoMap

theorem get_put (m : GoMap) (k v k' : String) :
    (m.put k v).get k' = if k = k' then some v else m.get k' := by
  induction m with
  | nil => simp [put, get]
  | cons e t ih =>
    obtain ⟨a, b⟩ := e
    by_cases hak : a = k
    · subst hak
      by_cases hk : a = k' <;> simp [put, get, hk]
    · by_cases hk : k = k'
      · subst hk
        simp [put, get, hak, ih]
      · by_cases hak' : a = k'
        · subst hak'
          simp [put, get, hak, hk]
        · simp [put, get, hak, hak', hk, ih]

theorem mem_keys_put (m : GoMap) (k v k' : String) :
    k' ∈ (m.put k v).keys ↔ k' = k ∨ k' ∈ m.keys := by
  induction m with
  | nil => simp [put, keys]
  | cons e t ih =>
    obtain ⟨a, b⟩ := e
    by_cases hak : a = k
    · subst hak
      simp [put, keys]
    · simp only [keys] at ih
      simp only [put, hak, keys, if_false, List.map_cons, List.mem_cons, ih]
      tauto

theorem nodup_keys_put (m : GoMap) (k v : String) (hm : m.keys.Nodup) :
    (m.put k v).keys.Nodup := by
  induction m with
  | nil => simp [put, keys]
  | cons e t ih =>
    obtain ⟨a, b⟩ := e
    simp only [keys, List.map_cons, List.nodup_cons] at hm
    by_cases hak : a = k
    · subst hak
      simpa [put, keys] using hm
    · have h1 : a ∉ (put t k v).keys := by
        rw [mem_keys_put]
        rintro (h | h)
        · exact hak h
        · exact hm.1 h
      simp only [put, hak, if_false, keys, List.map_cons, List.nodup_cons]
      exact ⟨h1, ih hm.2⟩

theorem get_eq_none_iff (m : GoMap) (k : String) : m.get k = none ↔ k ∉ m.keys := by
  induction m with
  | nil => simp [get, keys]
  | cons e t ih =>
    obtain ⟨a, b⟩ := e
    by_cases hak : a = k
    · simp [get, keys, hak]
    · simp only [keys] at ih
      simp only [get, hak, if_false, ih, keys, List.map_cons, List.mem_cons]
      constructor
      · rintro h (h1 | h1)
        · exact hak h1.symm
        · exact h h1
      · intro h h1
        exact h (Or.inr h1)

theorem mem_of_get (m : GoMap) (k v : String) (h : m.get k = some v) : (k, v) ∈ m := by
  induction m with
  | nil => simp [get] at h
  | cons e t ih =>
    obtain ⟨a, b⟩ := e
    by_cases hak : a = k
    · simp only [get, hak, if_true, Option.some.injEq] at h
      simp [hak, h]
    · simp only [get, hak, if_false] at h
      exact List.mem_cons_of_mem _ (ih h)

theorem get_of_mem (m : GoMap) (k v : String) (hm : m.keys.Nodup) (h : (k, v) ∈ m) :
    m.get k = some v := by
  induction m with
  | nil => simp at h
  | cons e t ih =>
    obtain ⟨a, b⟩ := e
    simp only [keys, List.map_cons, List.nodup_cons] at hm
    rcases List.mem_cons.1 h with h1 | h1
    · simp only [Prod.mk.injEq] at h1
      simp [get, h1.1, h1.2]
    · have hne : a ≠ k := by
        rintro rfl
        exact hm.1 (List.mem_map_of_mem Prod.fst h1)
      simp only [get, hne, if_false]
      exact ih hm.2 h1

end GoMap

/-! ## `getServiceHosts` -/

theorem podLoop_fst (pods : List Pod) (ip : String) (podNames : List String) :
    (podLoop pods ip podNames).1 = (podLoop pods ip []).1 := by
  induction pods generalizing ip with
  | nil => rfl
  | cons p ps ih =>
    by_cases hp : p.PodIP = ""
    · simpa [podLoop, hp] using ih ""
    · simp [podLoop, hp]

theorem podLoop_snd (pods : List Pod) (ip : String) (podNames : List String) :
    (podLoop pods ip podNames).2 = podNames ++ (podLoop pods ip []).2 := by
  induction pods generalizing ip with
  | nil => simp [podLoop]
  | cons p ps ih =>
    by_cases hp : p.PodIP = ""
    · simpa [podLoop, hp] using ih ""
    · simp [podLoop, hp]

theorem podLoop_first (before after : List Pod) (p : Pod) (ip : String)
    (podNames : List String) (hb : ∀ q ∈ before, q.PodIP = "") (hp : p.PodIP ≠ "") :
    podLoop (before ++ p :: after) ip podNames = (p.PodIP, podNames ++ [p.Name]) := by
  induction before generalizing ip with
  | nil => simp [podLoop, hp]
  | cons q qs ih =>
    have hq : q.PodIP = "" := hb q (List.mem_cons_self _ _)
    have hqs : ∀ x ∈ qs, x.PodIP = "" := fun x hx => hb x (List.mem_cons_of_mem _ hx)
    simpa [podLoop, hq] using ih "" hqs

theorem serviceStep_snd (c : Cluster) (ns : String) (st : GoMap × List String) (s : Service) :
    (serviceStep c ns st s).2 = st.2 ++ (serviceStep c ns ([], []) s).2 := by
  unfold serviceStep
  by_cases hh : s.ClusterIP = "" ∨ s.ClusterIP = "None"
  · simp only [hh, if_true]
    cases hp : c.GetPodsByLabel s.Selector ns with
    | error e => simp
    | ok pods =>
      by_cases hl : pods.length = 0
      · simp [hl]
      · simp only [hl, if_false]
        rw [podLoop_snd]
  · simp [hh]

theorem foldl_serviceStep_snd (c : Cluster) (ns : String) (l : List Service)
    (st : GoMap × List String) :
    (l.foldl (serviceStep c ns) st).2 = st.2 ++ (l.foldl (serviceStep c ns) ([], [])).2 := by
  induction l generalizing st with
  | nil => simp
  | cons s t ih =>
    simp only [List.foldl_cons]
    rw [ih (serviceStep c ns st s), ih (serviceStep c ns ([], []) s), serviceStep_snd c ns st s,
      List.append_assoc]

theorem serviceStep_get_other (c : Cluster) (ns : String) (st : GoMap × List String)
    (s : Service) (k : String) (hk : s.Name ≠ k) :
    (serviceStep c ns st s).1.get k = st.1.get k := by
  unfold serviceStep
  by_cases hh : s.ClusterIP = "" ∨ s.ClusterIP = "None"
  · simp only [hh, if_true]
    cases hp : c.GetPodsByLabel s.Selector ns with
    | error e => simp
    | ok pods =>
      by_cases hl : pods.length = 0
      · simp [hl]
      · simp [hl, GoMap.get_put, hk]
  · simp [hh, GoMap.get_put, hk]

theorem foldl_serviceStep_get_other (c : Cluster) (ns : String) (l : List Service)
    (st : GoMap × List String) (k : String) (hk : ∀ s ∈ l, s.Name ≠ k) :
    (l.foldl (serviceStep c ns) st).1.get k = st.1.get k := by
  induction l generalizing st with
  | nil => rfl
  | cons s t ih =>
    simp only [List.foldl_cons]
    rw [ih _ (fun x hx => hk x (List.mem_cons_of_mem _ hx)),
      serviceStep_get_other c ns st s k (hk s (List.mem_cons_self _ _))]

theorem serviceStep_keys (c : Cluster) (ns : String) (st : GoMap × List String)
    (s : Service) (k : String) (hk : k ∈ (serviceStep c ns st s).1.keys) :
    k = s.Name ∨ k ∈ st.1.keys := by
  unfold serviceStep at hk
  by_cases hh : s.ClusterIP = "" ∨ s.ClusterIP = "None"
  · simp only [hh, if_true] at hk
    cases hp : c.GetPodsByLabel s.Selector ns with
    | error e =>
      rw [hp] at hk
      exact Or.inr hk
    | ok pods =>
      rw [hp] at hk
      by_cases hl : pods.length = 0
      · simp only [hl, if_true] at hk
        exact Or.inr hk
      · simp only [hl, if_false] at hk
        exact (GoMap.mem_keys_put _ _ _ _).1 hk
  · simp only [hh, if_false] at hk
    exact (GoMap.mem_keys_put _ _ _ _).1 hk

theorem serviceStep_nodup (c : Cluster) (ns : String) (st : GoMap × List String)
    (s : Service) (hst : st.1.keys.Nodup) : (serviceStep c ns st s).1.keys.Nodup := by
  unfold serviceStep
  by_cases hh : s.ClusterIP = "" ∨ s.ClusterIP = "None"
  · simp only [hh, if_true]
    cases hp : c.GetPodsByLabel s.Selector ns with
    | error e => simpa using hst
    | ok pods =>
      by_cases hl : pods.length = 0
      · simpa [hl] using hst
      · simp only [hl, if_false]
        exact GoMap.nodup_keys_put _ _ _ hst
  · simp only [hh, if_false]
    exact GoMap.nodup_keys_put _ _ _ hst

theorem foldl_serviceStep_nodup (c : Cluster) (ns : String) (l : List Service)
    (st : GoMap × List String) (hst : st.1.keys.Nodup) :
    (l.foldl (serviceStep c ns) st).1.keys.Nodup := by
  induction l generalizing st with
  | nil => exact hst
  | cons s t ih => exact ih _ (serviceStep_nodup c ns st s hst)

theorem foldl_serviceStep_keys (c : Cluster) (ns : String) (l : List Service)
    (st : GoMap × List String) (k : String)
    (hk : k ∈ (l.foldl (serviceStep c ns) st).1.keys) :
    k ∈ l.map Service.Name ∨ k ∈ st.1.keys := by
  induction l generalizing st with
  | nil => exact Or.inr hk
  | cons s t ih =>
    rcases ih _ hk with h | h
    · exact Or.inl (List.mem_cons_of_mem _ h)
    · rcases serviceStep_keys c ns st s k h with h1 | h1
      · exact Or.inl (by simp [h1])
      · exact Or.inr h1

theorem getServiceHosts_nodup (c : Cluster) (ns : String) :
    (getServiceHosts c ns).1.keys.Nodup := by
  unfold getServiceHosts
  cases c.GetAllServiceInNamespace ns with
  | error e => simp [GoMap.keys]
  | ok services => exact foldl_serviceStep_nodup c ns services ([], []) (by simp [GoMap.keys])

theorem getServiceHosts_keys (c : Cluster) (ns : String) (services : List Service)
    (h : c.GetAllServiceInNamespace ns = .ok services) (k : String)
    (hk : k ∈ (getServiceHosts c ns).1.keys) : k ∈ services.map Service.Name := by
  unfold getServiceHosts at hk
  rw [h] at hk
  rcases foldl_serviceStep_keys c ns services ([], []) k hk with h1 | h1
  · exact h1
  · simp [GoMap.keys] at h1

theorem serviceStep_headless (c : Cluster) (ns : String) (st : GoMap × List String)
    (svc : Service) (before after : List Pod) (p : Pod)
    (hh : svc.ClusterIP = "" ∨ svc.ClusterIP = "None")
    (hpods : c.GetPodsByLabel svc.Selector ns = .ok (before ++ p :: after))
    (hb : ∀ q ∈ before, q.PodIP = "") (hp : p.PodIP ≠ "") :
    serviceStep c ns st svc = (st.1.put svc.Name p.PodIP, st.2 ++ [p.Name]) := by
  unfold serviceStep
  simp only [hh, if_true, hpods]
  have hl : ¬ (before ++ p :: after).length = 0 := by simp
  simp only [hl, if_false]
  rw [podLoop_first before after p _ _ hb hp]

theorem serviceStep_clusterIP (c : Cluster) (ns : String) (st : GoMap × List String)
    (svc : Service) (hh : ¬ (svc.ClusterIP = "" ∨ svc.ClusterIP = "None")) :
    serviceStep c ns st svc = (st.1.put svc.Name svc.ClusterIP, st.2) := by
  unfold serviceStep
  simp only [hh, if_false]

/-- C1: a headless Service whose pods all still have an empty IP is not omitted:
on `pendingCluster` the table of `getServiceHosts` has the entry `db` with the
empty string as its IP (and no pod name is tracked for it), while the Service
`web` is processed as usual. -/
theorem getServiceHosts_pending_headless :
    pendingCluster.GetAllServiceInNamespace "default" = .ok [webService, dbService] ∧
    pendingCluster.GetPodsByLabel dbService.Selector "default" =
      .ok [⟨"db-0", "", []⟩, ⟨"db-1", "", []⟩] ∧
    getServiceHosts pendingCluster "default" = ([("web", "10.0.0.1"), ("db", "")], []) ∧
    (getServiceHosts pendingCluster "default").1.get "db" = some "" :=
  ⟨rfl, rfl, by decide, by decide⟩

/-- C2: for a Service `svc` of the namespace (not followed by a Service of the
same name), `getServiceHosts` maps its name to the IP of the first pod with a
non-empty IP and records exactly that pod's name when `svc` is headless, and
maps its name to the ClusterIP and records no pod name otherwise. -/
theorem getServiceHosts_resolves (c : Cluster) (ns : String) (pre post : List Service)
    (svc : Service) (hall : c.GetAllServiceInNamespace ns = .ok (pre ++ svc :: post))
    (huniq : ∀ s ∈ post, s.Name ≠ svc.Name) :
    (∀ (before after : List Pod) (p : Pod),
      (svc.ClusterIP = "" ∨ svc.ClusterIP = "None") →
      c.GetPodsByLabel svc.Selector ns = .ok (before ++ p :: after) →
      (∀ q ∈ before, q.PodIP = "") → p.PodIP ≠ "" →
      (getServiceHosts c ns).1.get svc.Name = some p.PodIP ∧
      (getServiceHosts c ns).2 =
        (pre.foldl (serviceStep c ns) ([], [])).2 ++ [p.Name] ++
          (post.foldl (serviceStep c ns) ([], [])).2) ∧
    (¬ (svc.ClusterIP = "" ∨ svc.ClusterIP = "None") →
      (getServiceHosts c ns).1.get svc.Name = some svc.ClusterIP ∧
      (getServiceHosts c ns).2 =
        (pre.foldl (serviceStep c ns) ([], [])).2 ++
          (post.foldl (serviceStep c ns) ([], [])).2) := by
  have hfold : getServiceHosts c ns =
      post.foldl (serviceStep c ns)
        (serviceStep c ns (pre.foldl (serviceStep c ns) ([], [])) svc) := by
    unfold getServiceHosts
    rw [hall]
    simp [List.foldl_append]
  constructor
  · intro before after p hh hpods hb hp
    rw [hfold, serviceStep_headless c ns _ svc before after p hh hpods hb hp]
    constructor
    · rw [foldl_serviceStep_get_other c ns post _ svc.Name huniq, GoMap.get_put]
      simp
    · rw [foldl_serviceStep_snd]
  · intro hh
    rw [hfold, serviceStep_clusterIP c ns _ svc hh]
    constructor
    · rw [foldl_serviceStep_get_other c ns post _ svc.Name huniq, GoMap.get_put]
      simp
    · rw [foldl_serviceStep_snd]

/-- Witness for C2 on `demoCluster`: the headless Service `db` resolves to the
second pod `db-1`, the first one with an IP. -/
theorem getServiceHosts_resolves_witness :
    (getServiceHosts demoCluster "default").1.get "db" = some "10.1.0.5" ∧
    (getServiceHosts demoCluster "default").2 = [] ++ ["db-1"] ++ [] :=
  (getServiceHosts_resolves demoCluster "default" [webService] [] dbService rfl
    (by simp)).1 [⟨"db-0", "", []⟩] [⟨"db-2", "10.1.0.6", []⟩] ⟨"db-1", "10.1.0.5", []⟩
    (by decide) rfl (by decide) (by decide)

/-! ## Host names -/

theorem dot_split_inj (a a' r r' : List Char) (ha : '.' ∉ a) (ha' : '.' ∉ a')
    (h : a ++ '.' :: r = a' ++ '.' :: r') : a = a' ∧ r = r' := by
  induction a generalizing a' with
  | nil =>
    cases a' with
    | nil => simpa using h
    | cons y t =>
      simp only [List.nil_append, List.cons_append, List.cons.injEq] at h
      exact absurd (by simp [← h.1]) ha'
  | cons x t ih =>
    cases a' with
    | nil =>
      simp only [List.nil_append, List.cons_append, List.cons.injEq] at h
      exact absurd (by simp [h.1]) ha
    | cons y t' =>
      simp only [List.cons_append, List.cons.injEq] at h
      have ht : '.' ∉ t := fun hm => ha (List.mem_cons_of_mem _ hm)
      have ht' : '.' ∉ t' := fun hm => ha' (List.mem_cons_of_mem _ hm)
      obtain ⟨h1, h2⟩ := ih t' ht ht' h.2
      exact ⟨by rw [h.1, h1], h2⟩

theorem qualified_data (svc ns : String) :
    (svc ++ "." ++ ns).data = svc.data ++ '.' :: ns.data := by
  simp [String.data_append]

theorem full_data (svc ns cd : String) :
    (svc ++ "." ++ ns ++ ".svc." ++ cd).data =
      svc.data ++ '.' :: (ns.data ++ '.' :: ('s' :: 'v' :: 'c' :: '.' :: cd.data)) := by
  simp [String.data_append]

theorem qualified_inj (svc ns svc' ns' : String) (h1 : dotFree svc) (h2 : dotFree svc')
    (h : svc ++ "." ++ ns = svc' ++ "." ++ ns') : svc = svc' ∧ ns = ns' := by
  have hd := congrArg String.data h
  rw [qualified_data, qualified_data] at hd
  obtain ⟨ha, hb⟩ := dot_split_inj _ _ _ _ h1 h2 hd
  exact ⟨String.ext ha, String.ext hb⟩

theorem full_inj (svc ns svc' ns' cd : String) (h1 : dotFree svc) (h2 : dotFree svc')
    (h3 : dotFree ns) (h4 : dotFree ns')
    (h : svc ++ "." ++ ns ++ ".svc." ++ cd = svc' ++ "." ++ ns' ++ ".svc." ++ cd) :
    svc = svc' ∧ ns = ns' := by
  have hd := congrArg String.data h
  rw [full_data, full_data] at hd
  obtain ⟨ha, hb⟩ := dot_split_inj _ _ _ _ h1 h2 hd
  obtain ⟨hc, _⟩ := dot_split_inj _ _ _ _ h3 h4 hb
  exact ⟨String.ext ha, String.ext hc⟩

theorem qualified_ne_full (svc ns svc' ns' cd : String) (h1 : dotFree svc) (h2 : dotFree svc')
    (h3 : dotFree ns) :
    svc ++ "." ++ ns ≠ svc' ++ "." ++ ns' ++ ".svc." ++ cd := by
  intro h
  have hd := congrArg String.data h
  rw [qualified_data, full_data] at hd
  obtain ⟨_, hb⟩ := dot_split_inj _ _ _ _ h1 h2 hd
  exact h3 (by rw [hb]; simp)

theorem bare_ne_qualified (svc svc' ns' : String) (h1 : dotFree svc) :
    svc ≠ svc' ++ "." ++ ns' := by
  intro h
  have hd := congrArg String.data h
  rw [qualified_data] at hd
  exact h1 (by rw [hd]; simp)

theorem bare_ne_full (svc svc' ns' cd : String) (h1 : dotFree svc) :
    svc ≠ svc' ++ "." ++ ns' ++ ".svc." ++ cd := by
  intro h
  have hd := congrArg String.data h
  rw [full_data] at hd
  exact h1 (by rw [hd]; simp)


/-! ## Sequences of map writes -/

theorem putAll_cons (m : GoMap) (e : String × String) (ps : List (String × String)) :
    putAll m (e :: ps) = putAll (m.put e.1 e.2) ps := rfl

theorem putAll_append (m : GoMap) (ps qs : List (String × String)) :
    putAll m (ps ++ qs) = putAll (putAll m ps) qs := by
  simp [putAll, List.foldl_append]

theorem mem_keys_putAll (m : GoMap) (ps : List (String × String)) (k : String) :
    k ∈ (putAll m ps).keys ↔ k ∈ m.keys ∨ k ∈ ps.map Prod.fst := by
  induction ps generalizing m with
  | nil => simp [putAll]
  | cons e t ih =>
    rw [putAll_cons, ih, GoMap.mem_keys_put]
    simp only [List.map_cons, List.mem_cons]
    tauto

theorem nodup_keys_putAll (m : GoMap) (ps : List (String × String)) (hm : m.keys.Nodup) :
    (putAll m ps).keys.Nodup := by
  induction ps generalizing m with
  | nil => exact hm
  | cons e t ih => exact ih _ (GoMap.nodup_keys_put m e.1 e.2 hm)

theorem get_putAll_of_not_mem (m : GoMap) (ps : List (String × String)) (k : String)
    (hk : k ∉ ps.map Prod.fst) : (putAll m ps).get k = m.get k := by
  induction ps generalizing m with
  | nil => rfl
  | cons e t ih =>
    simp only [List.map_cons, List.mem_cons, not_or] at hk
    rw [putAll_cons, ih _ hk.2, GoMap.get_put]
    simp [Ne.symm hk.1]

theorem get_putAll_of_mem (m : GoMap) (ps : List (String × String)) (k v : String)
    (hfun : ∀ a b b', (a, b) ∈ ps → (a, b') ∈ ps → b = b') (hk : (k, v) ∈ ps) :
    (putAll m ps).get k = some v := by
  induction ps generalizing m with
  | nil => simp at hk
  | cons e t ih =>
    rw [putAll_cons]
    by_cases ht : (k, v) ∈ t
    · exact ih _ (fun a b b' hb hb' =>
        hfun a b b' (List.mem_cons_of_mem _ hb) (List.mem_cons_of_mem _ hb')) ht
    · have he : e = (k, v) := by
        rcases List.mem_cons.1 hk with h | h
        · exact h.symm
        · exact absurd h ht
      have hnot : k ∉ t.map Prod.fst := by
        intro hmem
        obtain ⟨⟨a, b⟩, hab, hak⟩ := List.mem_map.1 hmem
        simp only at hak
        subst hak
        have : v = b := hfun a v b hk (List.mem_cons_of_mem _ hab)
        subst this
        exact ht hab
      rw [get_putAll_of_not_mem _ _ _ hnot, GoMap.get_put]
      simp [he]

/-! ## The writes of `dumpToHost` -/

theorem dumpEntry_eq (cur cd ns : String) (hosts : GoMap) (e : String × String) :
    dumpEntry cur cd ns hosts e = putAll hosts (entryPuts cur cd ns e) := by
  unfold dumpEntry entryPuts
  by_cases h : ns = cur <;> simp [h, putAll]

theorem foldl_dumpEntry_eq (cur cd ns : String) (l : List (String × String)) (hosts : GoMap) :
    l.foldl (dumpEntry cur cd ns) hosts = putAll hosts (l.flatMap (entryPuts cur cd ns)) := by
  induction l generalizing hosts with
  | nil => rfl
  | cons e t ih =>
    rw [List.foldl_cons, ih, dumpEntry_eq, List.flatMap_cons, putAll_append]

theorem dumpNamespace_eq (c : Cluster) (cur cd : String) (hosts : GoMap) (ns : String) :
    dumpNamespace c cur cd hosts ns = putAll hosts (nsPuts c cur cd ns) := by
  unfold dumpNamespace nsPuts
  exact foldl_dumpEntry_eq cur cd ns _ hosts

theorem foldl_dumpNamespace_eq (c : Cluster) (cur cd : String) (nss : List String)
    (hosts : GoMap) :
    nss.foldl (dumpNamespace c cur cd) hosts = putAll hosts (nss.flatMap (nsPuts c cur cd)) := by
  induction nss generalizing hosts with
  | nil => rfl
  | cons ns t ih =>
    rw [List.foldl_cons, ih, dumpNamespace_eq, List.flatMap_cons, putAll_append]

theorem dumpToHostTable_eq (c : Cluster) (cur target cd : String) :
    dumpToHostTable c cur target cd =
      putAll [] ((namespacesToDump cur target).flatMap (nsPuts c cur cd)) :=
  foldl_dumpNamespace_eq c cur cd _ []

theorem mem_entryPuts (cur cd ns : String) (e : String × String) (k v : String) :
    (k, v) ∈ entryPuts cur cd ns e ↔
      v = e.2 ∧ (k = e.1 ++ "." ++ ns ∨ k = e.1 ++ "." ++ ns ++ ".svc." ++ cd ∨
        (ns = cur ∧ k = e.1)) := by
  unfold entryPuts
  by_cases h : ns = cur
  · simp only [h, if_true, List.mem_append, List.mem_cons, List.mem_singleton, Prod.mk.injEq,
      List.not_mem_nil, or_false, true_and]
    tauto
  · simp only [h, if_false, List.nil_append, List.mem_cons, List.mem_singleton, Prod.mk.injEq,
      List.not_mem_nil, or_false, false_and]
    tauto

theorem mem_nsPuts (c : Cluster) (cur cd ns : String)
    (hperm : ∀ m, (c.rangeOrder m).Perm m) (k v : String) :
    (k, v) ∈ nsPuts c cur cd ns ↔
      ∃ svc, (svc, v) ∈ (getServiceHosts c ns).1 ∧
        (k = svc ++ "." ++ ns ∨ k = svc ++ "." ++ ns ++ ".svc." ++ cd ∨
          (ns = cur ∧ k = svc)) := by
  unfold nsPuts
  simp only [List.mem_flatMap, mem_entryPuts, (hperm _).mem_iff]
  constructor
  · rintro ⟨⟨a, b⟩, hab, hv, hk⟩
    simp only at hv hk
    subst hv
    exact ⟨a, hab, hk⟩
  · rintro ⟨svc, hm, hk⟩
    exact ⟨(svc, v), hm, rfl, hk⟩


theorem origin_unique (cur cd ns ns' svc svc' k : String)
    (h1 : dotFree svc) (h2 : dotFree svc') (h3 : dotFree ns) (h4 : dotFree ns')
    (h : k = svc ++ "." ++ ns ∨ k = svc ++ "." ++ ns ++ ".svc." ++ cd ∨ (ns = cur ∧ k = svc))
    (h' : k = svc' ++ "." ++ ns' ∨ k = svc' ++ "." ++ ns' ++ ".svc." ++ cd ∨
      (ns' = cur ∧ k = svc')) : svc = svc' ∧ ns = ns' := by
  rcases h with h | h | ⟨hc, h⟩ <;> rcases h' with h' | h' | ⟨hc', h'⟩
  · exact qualified_inj svc ns svc' ns' h1 h2 (h.symm.trans h')
  · exact absurd (h.symm.trans h') (qualified_ne_full svc ns svc' ns' cd h1 h2 h3)
  · exact absurd (h'.symm.trans h) (bare_ne_qualified svc' svc ns h2)
  · exact absurd (h'.symm.trans h) (qualified_ne_full svc' ns' svc ns cd h2 h1 h4)
  · exact full_inj svc ns svc' ns' cd h1 h2 h3 h4 (h.symm.trans h')
  · exact absurd (h'.symm.trans h) (bare_ne_full svc' svc ns cd h2)
  · exact absurd (h.symm.trans h') (bare_ne_qualified svc svc' ns' h1)
  · exact absurd (h.symm.trans h') (bare_ne_full svc svc' ns' cd h1)
  · exact ⟨h.symm.trans h', hc.trans hc'.symm⟩

theorem mem_keys_of_mem (m : GoMap) (k v : String) (h : (k, v) ∈ m) : k ∈ m.keys :=
  List.mem_map_of_mem Prod.fst h

theorem allPuts_functional (c : Cluster) (cur cd : String) (nss : List String)
    (hperm : ∀ m, (c.rangeOrder m).Perm m) (hns : ∀ ns ∈ nss, dotFree ns)
    (hsvc : ∀ ns ∈ nss, ∀ k ∈ (getServiceHosts c ns).1.keys, dotFree k)
    (a b b' : String) (hb : (a, b) ∈ nss.flatMap (nsPuts c cur cd))
    (hb' : (a, b') ∈ nss.flatMap (nsPuts c cur cd)) : b = b' := by
  obtain ⟨ns, hmem, h⟩ := List.mem_flatMap.1 hb
  obtain ⟨ns', hmem', h'⟩ := List.mem_flatMap.1 hb'
  obtain ⟨svc, hs, hk⟩ := (mem_nsPuts c cur cd ns hperm a b).1 h
  obtain ⟨svc', hs', hk'⟩ := (mem_nsPuts c cur cd ns' hperm a b').1 h'
  obtain ⟨e1, e2⟩ := origin_unique cur cd ns ns' svc svc' a
    (hsvc ns hmem svc (mem_keys_of_mem _ _ _ hs))
    (hsvc ns' hmem' svc' (mem_keys_of_mem _ _ _ hs')) (hns ns hmem) (hns ns' hmem') hk hk'
  subst e1 e2
  have g1 := GoMap.get_of_mem _ _ _ (getServiceHosts_nodup c ns) hs
  have g2 := GoMap.get_of_mem _ _ _ (getServiceHosts_nodup c ns) hs'
  rw [g1] at g2
  exact Option.some.inj g2

/-- The lookups of the dumped table: every resolved Service of a dumped
namespace is found under its two qualified names, and under its bare name when
the namespace is the current one. -/
theorem dumpTable_get (c : Cluster) (cur cd : String) (nss : List String)
    (hperm : ∀ m, (c.rangeOrder m).Perm m) (hns : ∀ ns ∈ nss, dotFree ns)
    (hsvc : ∀ ns ∈ nss, ∀ k ∈ (getServiceHosts c ns).1.keys, dotFree k)
    (ns : String) (hmem : ns ∈ nss) (svc ip : String)
    (hget : (getServiceHosts c ns).1.get svc = some ip) :
    (putAll [] (nss.flatMap (nsPuts c cur cd))).get (svc ++ "." ++ ns) = some ip ∧
    (putAll [] (nss.flatMap (nsPuts c cur cd))).get (svc ++ "." ++ ns ++ ".svc." ++ cd)
      = some ip ∧
    (ns = cur → (putAll [] (nss.flatMap (nsPuts c cur cd))).get svc = some ip) := by
  have hin := GoMap.mem_of_get _ _ _ hget
  have hf := allPuts_functional c cur cd nss hperm hns hsvc
  refine ⟨?_, ?_, ?_⟩
  · apply get_putAll_of_mem _ _ _ _ hf
    exact List.mem_flatMap.2 ⟨ns, hmem, (mem_nsPuts c cur cd ns hperm _ _).2
      ⟨svc, hin, Or.inl rfl⟩⟩
  · apply get_putAll_of_mem _ _ _ _ hf
    exact List.mem_flatMap.2 ⟨ns, hmem, (mem_nsPuts c cur cd ns hperm _ _).2
      ⟨svc, hin, Or.inr (Or.inl rfl)⟩⟩
  · intro hc
    apply get_putAll_of_mem _ _ _ _ hf
    exact List.mem_flatMap.2 ⟨ns, hmem, (mem_nsPuts c cur cd ns hperm _ _).2
      ⟨svc, hin, Or.inr (Or.inr ⟨hc, rfl⟩)⟩⟩

/-- The keys of the dumped table are exactly the host names written for the
resolved Services of the dumped namespaces. -/
theorem dumpTable_keys (c : Cluster) (cur cd : String) (nss : List String)
    (hperm : ∀ m, (c.rangeOrder m).Perm m) (k : String) :
    k ∈ (putAll [] (nss.flatMap (nsPuts c cur cd))).keys ↔
      ∃ ns ∈ nss, ∃ svc ∈ (getServiceHosts c ns).1.keys,
        (k = svc ++ "." ++ ns ∨ k = svc ++ "." ++ ns ++ ".svc." ++ cd ∨
          (ns = cur ∧ k = svc)) := by
  rw [mem_keys_putAll]
  simp only [GoMap.keys, List.map_nil, List.not_mem_nil, false_or, List.mem_map, Prod.exists,
    exists_and_right, exists_eq_right, List.mem_flatMap]
  constructor
  · rintro ⟨v, ns, hmem, h⟩
    obtain ⟨svc, hs, hk⟩ := (mem_nsPuts c cur cd ns hperm k v).1 h
    exact ⟨ns, hmem, svc, ⟨v, hs⟩, hk⟩
  · rintro ⟨ns, hmem, svc, ⟨v, hs⟩, hk⟩
    exact ⟨v, ns, hmem, (mem_nsPuts c cur cd ns hperm k v).2 ⟨svc, hs, hk⟩⟩


theorem entryPuts_keys_nodup (cur cd ns : String) (e : String × String)
    (he : dotFree e.1) (hns : dotFree ns) :
    ((entryPuts cur cd ns e).map Prod.fst).Nodup := by
  have h12 := qualified_ne_full e.1 ns e.1 ns cd he he hns
  have h01 := bare_ne_qualified e.1 e.1 ns he
  have h02 := bare_ne_full e.1 e.1 ns cd he
  unfold entryPuts
  by_cases h : ns = cur
  · simp only [h, if_true, List.singleton_append, List.map_cons, List.map_nil,
      List.nodup_cons, List.mem_cons, List.mem_singleton, List.not_mem_nil, not_or,
      not_false_eq_true, List.nodup_nil, and_true]
    subst h
    exact ⟨⟨h01, h02⟩, h12⟩
  · simp only [h, if_false, List.nil_append, List.map_cons, List.map_nil,
      List.nodup_cons, List.mem_singleton, List.not_mem_nil,
      not_false_eq_true, List.nodup_nil, and_true]
    exact h12

theorem flatMap_entryPuts_nodup (cur cd ns : String) (l : GoMap) (hl : l.keys.Nodup)
    (hd : ∀ k ∈ l.keys, dotFree k) (hns : dotFree ns) :
    ((l.flatMap (entryPuts cur cd ns)).map Prod.fst).Nodup := by
  induction l with
  | nil => simp
  | cons e t ih =>
    simp only [GoMap.keys, List.map_cons, List.nodup_cons] at hl
    have he : dotFree e.1 := hd e.1 (by simp [GoMap.keys])
    have ht : ∀ k ∈ GoMap.keys t, dotFree k := fun k hk =>
      hd k (by simp only [GoMap.keys, List.map_cons, List.mem_cons]; exact Or.inr hk)
    rw [List.flatMap_cons, List.map_append]
    refine List.Nodup.append (entryPuts_keys_nodup cur cd ns e he hns) (ih hl.2 ht) ?_
    intro k hk1 hk2
    obtain ⟨⟨a, v⟩, hav, hak⟩ := List.mem_map.1 hk1
    obtain ⟨⟨a', v'⟩, hav', hak'⟩ := List.mem_map.1 hk2
    simp only at hak hak'
    rw [hak] at hav
    rw [hak'] at hav'
    obtain ⟨e', he', hin⟩ := List.mem_flatMap.1 hav'
    have o1 := ((mem_entryPuts cur cd ns e k v).1 hav).2
    have o2 := ((mem_entryPuts cur cd ns e' k v').1 hin).2
    have he'k : e'.1 ∈ GoMap.keys t := List.mem_map_of_mem Prod.fst he'
    obtain ⟨e1, _⟩ := origin_unique cur cd ns ns e.1 e'.1 k he (ht _ he'k) hns hns o1 o2
    exact hl.1 (by rw [e1]; exact he'k)

theorem flatMap_entryPuts_length (cur cd ns : String) (l : GoMap) :
    (l.flatMap (entryPuts cur cd ns)).length = (if ns = cur then 3 else 2) * l.length := by
  induction l with
  | nil => simp
  | cons e t ih =>
    rw [List.flatMap_cons, List.length_append, ih, List.length_cons]
    by_cases h : ns = cur
    · simp only [entryPuts, h, if_true]
      simp only [List.singleton_append, List.length_cons, List.length_nil]
      ring
    · simp only [entryPuts, h, if_false]
      simp only [List.nil_append, List.length_cons, List.length_nil]
      ring

theorem nsPuts_card (c : Cluster) (cur cd ns : String)
    (hperm : ∀ m, (c.rangeOrder m).Perm m) (hns : dotFree ns)
    (hsvc : ∀ k ∈ (getServiceHosts c ns).1.keys, dotFree k) :
    ((nsPuts c cur cd ns).map Prod.fst).toFinset.card =
      (if ns = cur then 3 else 2) * (getServiceHosts c ns).1.size := by
  have hp := hperm (getServiceHosts c ns).1
  have hnd : (GoMap.keys (c.rangeOrder (getServiceHosts c ns).1)).Nodup :=
    ((hp.map Prod.fst).nodup_iff).2 (getServiceHosts_nodup c ns)
  have hdf : ∀ k ∈ GoMap.keys (c.rangeOrder (getServiceHosts c ns).1), dotFree k :=
    fun k hk => hsvc k (((hp.map Prod.fst).mem_iff).1 hk)
  unfold nsPuts
  rw [List.toFinset_card_of_nodup (flatMap_entryPuts_nodup cur cd ns _ hnd hdf hns),
    List.length_map, flatMap_entryPuts_length, hp.length_eq]
  rfl

/-- The size of the dumped table: three entries for every resolved Service of
the current namespace and two for every resolved Service of another dumped
namespace, a namespace listed twice counting once. -/
theorem dumpTable_size (c : Cluster) (cur cd : String) (nss : List String)
    (hperm : ∀ m, (c.rangeOrder m).Perm m) (hns : ∀ ns ∈ nss, dotFree ns)
    (hsvc : ∀ ns ∈ nss, ∀ k ∈ (getServiceHosts c ns).1.keys, dotFree k) :
    (putAll [] (nss.flatMap (nsPuts c cur cd))).size =
      (nss.toFinset).sum
        (fun ns => (if ns = cur then 3 else 2) * (getServiceHosts c ns).1.size) := by
  have hnd : (putAll [] (nss.flatMap (nsPuts c cur cd))).keys.Nodup :=
    nodup_keys_putAll [] _ (by simp [GoMap.keys])
  have hsize : (putAll [] (nss.flatMap (nsPuts c cur cd))).size =
      (putAll [] (nss.flatMap (nsPuts c cur cd))).keys.toFinset.card := by
    rw [List.toFinset_card_of_nodup hnd]
    simp [GoMap.size, GoMap.keys]
  have hkeys : (putAll [] (nss.flatMap (nsPuts c cur cd))).keys.toFinset =
      nss.toFinset.biUnion (fun ns => ((nsPuts c cur cd ns).map Prod.fst).toFinset) := by
    ext k
    simp only [List.mem_toFinset, mem_keys_putAll, Finset.mem_biUnion, List.map_flatMap,
      List.mem_flatMap]
    simp [GoMap.keys]
  rw [hsize, hkeys, Finset.card_biUnion]
  · apply Finset.sum_congr rfl
    intro ns hmem
    have hmem' : ns ∈ nss := List.mem_toFinset.1 hmem
    exact nsPuts_card c cur cd ns hperm (hns ns hmem') (hsvc ns hmem')
  · intro ns hmem ns' hmem' hne
    have hm : ns ∈ nss := List.mem_toFinset.1 hmem
    have hm' : ns' ∈ nss := List.mem_toFinset.1 hmem'
    rw [Finset.disjoint_left]
    intro k hk hk'
    obtain ⟨⟨a, v⟩, hav, hak⟩ := List.mem_map.1 (List.mem_toFinset.1 hk)
    obtain ⟨⟨a', v'⟩, hav', hak'⟩ := List.mem_map.1 (List.mem_toFinset.1 hk')
    simp only at hak hak'
    rw [hak] at hav
    rw [hak'] at hav'
    obtain ⟨svc, hs, ho⟩ := (mem_nsPuts c cur cd ns hperm k v).1 hav
    obtain ⟨svc', hs', ho'⟩ := (mem_nsPuts c cur cd ns' hperm k v').1 hav'
    exact hne (origin_unique cur cd ns ns' svc svc' k
      (hsvc ns hm svc (mem_keys_of_mem _ _ _ hs))
      (hsvc ns' hm' svc' (mem_keys_of_mem _ _ _ hs')) (hns ns hm) (hns ns' hm') ho ho').2


/-! ## The mode string -/

theorem foldl_append_singleton (l init : List String) :
    l.foldl (fun acc ns => acc ++ [ns]) init = init ++ l := by
  induction l generalizing init with
  | nil => simp
  | cons x t ih => simp [ih]

theorem namespacesToDump_empty (cur : String) : namespacesToDump cur "" = [cur] := by
  simp [namespacesToDump]

theorem namespacesToDump_list (cur target : String) (ht : target ≠ "") :
    namespacesToDump cur target = Split target := by
  simp [namespacesToDump, ht, foldl_append_singleton]

theorem hosts_list_data (L : String) :
    ("hosts:" ++ L).data = 'h' :: 'o' :: 's' :: 't' :: 's' :: ':' :: L.data := by
  simp [String.data_append]

theorem HasPrefix_hosts_list (L : String) : HasPrefix ("hosts:" ++ L) DnsModeHosts = true := by
  simp [HasPrefix, hosts_list_data, DnsModeHosts, List.isPrefixOf]

theorem dump2HostsNamespaces_list (L : String) (hL : L ≠ "") :
    dump2HostsNamespaces ("hosts:" ++ L) = L := by
  have hlen : 0 < L.data.length := by
    rcases L with ⟨d⟩
    cases d with
    | nil => exact absurd rfl hL
    | cons x t => simp
  have h1 : ("hosts:" ++ L).length > DnsModeHosts.length + 1 := by
    show ("hosts:" ++ L).data.length > 5 + 1
    rw [hosts_list_data]
    simp only [List.length_cons]
    omega
  have h2 : slice ("hosts:" ++ L) DnsModeHosts.length (DnsModeHosts.length + 1) = ":" := by
    show (⟨(("hosts:" ++ L).data.drop 5).take (5 + 1 - 5)⟩ : String) = ":"
    rw [hosts_list_data]
    rfl
  unfold dump2HostsNamespaces
  simp only [h1, h2, and_self, if_true]
  show (⟨("hosts:" ++ L).data.drop (5 + 1)⟩ : String) = L
  rw [hosts_list_data]
  rfl

theorem setupDns_hosts_list (c : Cluster) (h : Host) (o : Options) (shadowPodIp L : String)
    (hL : L ≠ "") (hmode : o.ConnectOptions.DnsMode = "hosts:" ++ L) :
    setupDns c h o shadowPodIp = dumpToHost c h o.Namespace L o.ConnectOptions.ClusterDomain := by
  unfold setupDns
  simp only [hmode, HasPrefix_hosts_list, if_true, dump2HostsNamespaces_list L hL]


/-! ## The table dumped by `dumpToHost` -/

/-- C3: the mapping `dumpToHost` passes to `DumpHosts` holds, for every resolved
Service of a dumped namespace, the namespace-qualified and the fully-qualified
name, and the bare name when the namespace is the current one, all mapped to the
Service's IP; it holds no other key, so it has three entries per Service of the
current namespace and two per Service of any other dumped namespace, and
`3 * |S|` entries when only the current namespace is dumped. -/
theorem dumpToHost_table_entries (c : Cluster) (h : Host) (cur target cd : String)
    (hperm : ∀ m, (c.rangeOrder m).Perm m)
    (hns : ∀ ns ∈ namespacesToDump cur target, dotFree ns)
    (hsvc : ∀ ns ∈ namespacesToDump cur target,
      ∀ k ∈ (getServiceHosts c ns).1.keys, dotFree k) :
    dumpToHost c h cur target cd =
      ([Effect.DumpHosts (dumpToHostTable c cur target cd)],
        h.DumpHosts (dumpToHostTable c cur target cd)) ∧
    (∀ ns ∈ namespacesToDump cur target, ∀ svc ip,
      (getServiceHosts c ns).1.get svc = some ip →
        (dumpToHostTable c cur target cd).get (svc ++ "." ++ ns) = some ip ∧
        (dumpToHostTable c cur target cd).get (svc ++ "." ++ ns ++ ".svc." ++ cd) = some ip ∧
        (ns = cur → (dumpToHostTable c cur target cd).get svc = some ip)) ∧
    (∀ k, k ∈ (dumpToHostTable c cur target cd).keys ↔
      ∃ ns ∈ namespacesToDump cur target, ∃ svc ∈ (getServiceHosts c ns).1.keys,
        (k = svc ++ "." ++ ns ∨ k = svc ++ "." ++ ns ++ ".svc." ++ cd ∨
          (ns = cur ∧ k = svc))) ∧
    (dumpToHostTable c cur target cd).size =
      (namespacesToDump cur target).toFinset.sum
        (fun ns => (if ns = cur then 3 else 2) * (getServiceHosts c ns).1.size) ∧
    (target = "" →
      (dumpToHostTable c cur target cd).size = 3 * (getServiceHosts c cur).1.size) := by
  have hsz := dumpTable_size c cur cd (namespacesToDump cur target) hperm hns hsvc
  rw [← dumpToHostTable_eq] at hsz
  refine ⟨rfl, ?_, ?_, hsz, ?_⟩
  · intro ns hmem svc ip hget
    rw [dumpToHostTable_eq]
    exact dumpTable_get c cur cd _ hperm hns hsvc ns hmem svc ip hget
  · intro k
    rw [dumpToHostTable_eq]
    exact dumpTable_keys c cur cd _ hperm k
  · intro ht
    rw [hsz, ht, namespacesToDump_empty]
    simp

/-- Witness for C3 on `demoCluster`, whose `range` visits entries in reverse:
a Service of the listed namespace `team-a` is found under its qualified name,
and the dump of the current namespace alone has three entries per Service. -/
theorem dumpToHost_table_entries_witness :
    (dumpToHostTable demoCluster "default" "default,team-a" "cluster.local").get
      ("api" ++ "." ++ "team-a") = some "10.0.0.2" ∧
    (dumpToHostTable demoCluster "default" "" "cluster.local").size =
      3 * (getServiceHosts demoCluster "default").1.size :=
  ⟨((dumpToHost_table_entries demoCluster demoHost "default" "default,team-a" "cluster.local"
      (fun m => List.reverse_perm m) (by decide) (by decide)).2.1
      "team-a" (by decide) "api" "10.0.0.2" (by decide)).1,
    (dumpToHost_table_entries demoCluster demoHost "default" "" "cluster.local"
      (fun m => List.reverse_perm m) (by decide) (by decide)).2.2.2.2 rfl⟩

/-- C4, refuted as stated: with the mode string `hosts:team-a` and the current
namespace `default`, the resolved Service `web` of the current namespace has no
entry in the dumped table, under none of its three names. -/
theorem dumpToHost_current_namespace_not_dumped :
    (getServiceHosts demoCluster "default").1.get "web" = some "10.0.0.1" ∧
    setupDns demoCluster demoHost ⟨"default", false, ⟨"hosts:team-a", "cluster.local", false⟩⟩
        "10.1.0.9" =
      ([Effect.DumpHosts [("api.team-a", "10.0.0.2"),
          ("api.team-a.svc.cluster.local", "10.0.0.2")]], none) ∧
    (dumpToHostTable demoCluster "default" "team-a" "cluster.local").get "web" = none ∧
    (dumpToHostTable demoCluster "default" "team-a" "cluster.local").get "web.default" = none ∧
    (dumpToHostTable demoCluster "default" "team-a" "cluster.local").get
      "web.default.svc.cluster.local" = none := by
  decide

/-- C4, amended: with a non-empty namespace list `L` in the mode string
`hosts:L`, `dumpToHost` enumerates the listed namespaces and only them: the keys
of the dumped table are exactly the names built for the resolved Services of
the listed namespaces, so a Service of the current namespace appears only when
the current namespace is itself listed. -/
theorem dumpToHost_listed_namespaces (c : Cluster) (h : Host) (o : Options)
    (shadowPodIp L : String) (hperm : ∀ m, (c.rangeOrder m).Perm m) (hL : L ≠ "")
    (hmode : o.ConnectOptions.DnsMode = "hosts:" ++ L) :
    setupDns c h o shadowPodIp =
      ([Effect.DumpHosts (dumpToHostTable c o.Namespace L o.ConnectOptions.ClusterDomain)],
        h.DumpHosts (dumpToHostTable c o.Namespace L o.ConnectOptions.ClusterDomain)) ∧
    namespacesToDump o.Namespace L = Split L ∧
    (∀ k, k ∈ (dumpToHostTable c o.Namespace L o.ConnectOptions.ClusterDomain).keys ↔
      ∃ ns ∈ Split L, ∃ svc ∈ (getServiceHosts c ns).1.keys,
        (k = svc ++ "." ++ ns ∨
          k = svc ++ "." ++ ns ++ ".svc." ++ o.ConnectOptions.ClusterDomain ∨
          (ns = o.Namespace ∧ k = svc))) ∧
    (o.Namespace ∉ Split L → ∀ svc ∈ (getServiceHosts c o.Namespace).1.keys, dotFree svc →
      (dumpToHostTable c o.Namespace L o.ConnectOptions.ClusterDomain).get svc = none) := by
  have hkeys : ∀ k, k ∈ (dumpToHostTable c o.Namespace L o.ConnectOptions.ClusterDomain).keys ↔
      ∃ ns ∈ Split L, ∃ svc ∈ (getServiceHosts c ns).1.keys,
        (k = svc ++ "." ++ ns ∨
          k = svc ++ "." ++ ns ++ ".svc." ++ o.ConnectOptions.ClusterDomain ∨
          (ns = o.Namespace ∧ k = svc)) := by
    intro k
    rw [dumpToHostTable_eq, namespacesToDump_list _ _ hL]
    exact dumpTable_keys c o.Namespace o.ConnectOptions.ClusterDomain _ hperm k
  refine ⟨?_, namespacesToDump_list _ _ hL, hkeys, ?_⟩
  · rw [setupDns_hosts_list c h o shadowPodIp L hL hmode]
    rfl
  · intro hnot svc _ hdf
    rw [GoMap.get_eq_none_iff, hkeys]
    rintro ⟨ns, hmem, svc', _, hk | hk | ⟨hc, _⟩⟩
    · exact bare_ne_qualified svc svc' ns hdf hk
    · exact bare_ne_full svc svc' ns _ hdf hk
    · exact hnot (hc ▸ hmem)

/-- Witness for C4 as amended: the mode string `hosts:team-a` on `demoCluster`. -/
theorem dumpToHost_listed_namespaces_witness :
    namespacesToDump "default" "team-a" = Split "team-a" ∧
    (dumpToHostTable demoCluster "default" "team-a" "cluster.local").get "web" = none :=
  ⟨(dumpToHost_listed_namespaces demoCluster demoHost
      ⟨"default", false, ⟨"hosts:team-a", "cluster.local", false⟩⟩ "10.1.0.9" "team-a"
      (fun m => List.reverse_perm m) (by decide) rfl).2.1,
    (dumpToHost_listed_namespaces demoCluster demoHost
      ⟨"default", false, ⟨"hosts:team-a", "cluster.local", false⟩⟩ "10.1.0.9" "team-a"
      (fun m => List.reverse_perm m) (by decide) rfl).2.2.2 (by decide) "web" (by decide)
      (by decide)⟩


/-! ## `strings.Split` and the `hosts` mode strings -/

theorem splitComma_ne_nil (l : List Char) : splitComma l ≠ [] := by
  induction l with
  | nil => simp [splitComma]
  | cons c cs ih =>
    unfold splitComma
    by_cases h : c = ','
    · simp [h]
    · simp only [h, if_false]
      cases hs : splitComma cs with
      | nil => simp
      | cons a b => simp

theorem intercalate_splitComma (l : List Char) : [','].intercalate (splitComma l) = l := by
  induction l with
  | nil => simp [splitComma, List.intercalate]
  | cons c cs ih =>
    unfold splitComma
    by_cases h : c = ','
    · simp only [h, if_true]
      cases hs : splitComma cs with
      | nil => exact absurd hs (splitComma_ne_nil cs)
      | cons a b =>
        rw [hs] at ih
        simp only [List.intercalate, List.intersperse_cons_cons, List.flatten_cons, List.nil_append] at ih ⊢
        simp [ih]
    · simp only [h, if_false]
      cases hs : splitComma cs with
      | nil => exact absurd hs (splitComma_ne_nil cs)
      | cons a b =>
        rw [hs] at ih
        cases b with
        | nil =>
          simp only [List.intercalate, List.intersperse_single, List.flatten_cons, List.flatten_nil, List.append_nil] at ih ⊢
          simp [ih]
        | cons b1 b2 =>
          simp only [List.intercalate, List.intersperse_cons_cons, List.flatten_cons] at ih ⊢
          simp [← ih]

theorem splitComma_no_comma (l : List Char) : ∀ p ∈ splitComma l, ',' ∉ p := by
  induction l with
  | nil => simp [splitComma]
  | cons c cs ih =>
    unfold splitComma
    by_cases h : c = ','
    · simp only [h, if_true, List.mem_cons]
      rintro p (rfl | hp)
      · simp
      · exact ih p hp
    · simp only [h, if_false]
      cases hs : splitComma cs with
      | nil => exact absurd hs (splitComma_ne_nil cs)
      | cons a b =>
        rw [hs] at ih
        simp only [List.mem_cons]
        rintro p (rfl | hp)
        · have := ih a (by simp)
          simp only [List.mem_cons, not_or]
          exact ⟨fun e => h e.symm, this⟩
        · exact ih p (by simp [hp])

theorem Split_data (s : String) : (Split s).map String.data = splitComma s.data := by
  simp [Split, Function.comp_def]

theorem setupDns_hosts_plain (c : Cluster) (h : Host) (o : Options) (shadowPodIp : String)
    (hmode : o.ConnectOptions.DnsMode = "hosts" ∨ o.ConnectOptions.DnsMode = "hosts:") :
    setupDns c h o shadowPodIp = dumpToHost c h o.Namespace "" o.ConnectOptions.ClusterDomain := by
  unfold setupDns
  rcases hmode with hm | hm
  · have h1 : HasPrefix "hosts" DnsModeHosts = true := by decide
    have h2 : dump2HostsNamespaces "hosts" = "" := by decide
    simp only [hm, h1, h2, if_true]
  · have h1 : HasPrefix "hosts:" DnsModeHosts = true := by decide
    have h2 : dump2HostsNamespaces "hosts:" = "" := by decide
    simp only [hm, h1, h2, if_true]

/-- C5: the mode string `hostsfoo` is outside the grammar, yet `setupDns` does
not reject it: it takes the `hosts` branch, dumps the Services of the current
namespace and returns no error, whereas `foo` gets the invalid-dns-mode error
without any call. -/
theorem setupDns_hostsfoo_accepted :
    setupDns demoCluster demoHost ⟨"default", false, ⟨"hostsfoo", "cluster.local", false⟩⟩
        "10.1.0.9" =
      ([Effect.DumpHosts [("db", "10.1.0.5"), ("db.default", "10.1.0.5"),
          ("db.default.svc.cluster.local", "10.1.0.5"), ("web", "10.0.0.1"),
          ("web.default", "10.0.0.1"), ("web.default.svc.cluster.local", "10.0.0.1")]],
        none) ∧
    setupDns demoCluster demoHost ⟨"default", false, ⟨"hostsfoo", "cluster.local", false⟩⟩
        "10.1.0.9" ≠ ([], some (invalidDnsMode "hostsfoo")) ∧
    setupDns demoCluster demoHost ⟨"default", false, ⟨"foo", "cluster.local", false⟩⟩
        "10.1.0.9" =
      ([], some "invalid dns mode: 'foo', supportted mode are local-dns, pod-dns, hosts") := by
  decide

/-- C6: the mode string `hosts:L` with a non-empty `L` selects the hosts dump
with the namespace list `L` split at every comma, in order (the parts have no
comma and joined by commas give `L` back); the mode strings `hosts` and `hosts:`
select the hosts dump of the current namespace alone. -/
theorem setupDns_hosts_namespaces (c : Cluster) (h : Host) (o : Options)
    (shadowPodIp : String) :
    (∀ L : String, L ≠ "" → o.ConnectOptions.DnsMode = "hosts:" ++ L →
      setupDns c h o shadowPodIp =
        dumpToHost c h o.Namespace L o.ConnectOptions.ClusterDomain ∧
      namespacesToDump o.Namespace L = Split L ∧
      [','].intercalate ((Split L).map String.data) = L.data ∧
      (∀ p ∈ Split L, ',' ∉ p.data)) ∧
    (o.ConnectOptions.DnsMode = "hosts" ∨ o.ConnectOptions.DnsMode = "hosts:" →
      setupDns c h o shadowPodIp =
        dumpToHost c h o.Namespace "" o.ConnectOptions.ClusterDomain ∧
      namespacesToDump o.Namespace "" = [o.Namespace]) := by
  constructor
  · intro L hL hmode
    refine ⟨setupDns_hosts_list c h o shadowPodIp L hL hmode, namespacesToDump_list _ _ hL,
      ?_, ?_⟩
    · rw [Split_data, intercalate_splitComma]
    · intro p hp
      have hp' : p.data ∈ (Split L).map String.data := List.mem_map_of_mem _ hp
      rw [Split_data] at hp'
      exact splitComma_no_comma _ _ hp'
  · intro hmode
    exact ⟨setupDns_hosts_plain c h o shadowPodIp hmode, namespacesToDump_empty _⟩

/-- Witness for C6: the mode string `hosts:team-a,team-b` yields the namespaces
`team-a` and `team-b`, and the mode string `hosts` yields the current one. -/
theorem setupDns_hosts_namespaces_witness :
    (namespacesToDump "default" "team-a,team-b" = Split "team-a,team-b" ∧
      Split "team-a,team-b" = ["team-a", "team-b"]) ∧
    namespacesToDump "default" "" = ["default"] :=
  ⟨⟨((setupDns_hosts_namespaces demoCluster demoHost
      ⟨"default", false, ⟨"hosts:team-a,team-b", "cluster.local", false⟩⟩ "10.1.0.9").1
      "team-a,team-b" (by decide) rfl).2.1, by decide⟩,
    ((setupDns_hosts_namespaces demoCluster demoHost
      ⟨"default", false, ⟨"hosts", "cluster.local", false⟩⟩ "10.1.0.9").2 (Or.inl rfl)).2⟩


/-! ## `RedirectService` -/

theorem foldl_targetPort_no_match (post : List ServicePort) (remotePort : Int)
    (init : IntOrString) (h : ∀ q ∈ post, q.Port ≠ remotePort) :
    post.foldl (fun targetPort p => if p.Port = remotePort then p.TargetPort else targetPort)
      init = init := by
  induction post generalizing init with
  | nil => rfl
  | cons q t ih =>
    have hq : q.Port ≠ remotePort := h q (List.mem_cons_self _ _)
    simp only [List.foldl_cons, hq, if_false]
    exact ih init (fun x hx => h x (List.mem_cons_of_mem _ hx))

theorem findTargetPort_none (ports : List ServicePort) (remotePort : Int)
    (h : ∀ q ∈ ports, q.Port ≠ remotePort) :
    findTargetPort ports remotePort = ⟨-1, 0, ""⟩ :=
  foldl_targetPort_no_match ports remotePort _ h

theorem findTargetPort_last (pre post : List ServicePort) (p : ServicePort) (remotePort : Int)
    (hp : p.Port = remotePort) (h : ∀ q ∈ post, q.Port ≠ remotePort) :
    findTargetPort (pre ++ p :: post) remotePort = p.TargetPort := by
  unfold findTargetPort
  rw [List.foldl_append, List.foldl_cons]
  simp only [hp, if_true]
  exact foldl_targetPort_no_match post remotePort _ h

theorem portLoop_append (l1 l2 : List ContainerPort) (name : String) :
    portLoop (l1 ++ l2) name =
      match portLoop l1 name with
      | some port => some port
      | none => portLoop l2 name := by
  induction l1 with
  | nil => rfl
  | cons x t ih =>
    by_cases hx : x.Name = name
    · simp [portLoop, hx]
    · simpa [portLoop, hx] using ih

theorem containerLoop_flat (cs : List Container) (name : String) (podPort : Int) :
    containerLoop cs name podPort =
      match portLoop (cs.flatMap Container.Ports) name with
      | some port => port
      | none => podPort := by
  induction cs with
  | nil => rfl
  | cons ct t ih =>
    rw [List.flatMap_cons, portLoop_append]
    cases hc : portLoop ct.Ports name with
    | some port => simp [containerLoop, hc]
    | none => simpa [containerLoop, hc] using ih

theorem portLoop_none (l : List ContainerPort) (name : String)
    (h : ∀ x ∈ l, x.Name ≠ name) : portLoop l name = none := by
  induction l with
  | nil => rfl
  | cons x t ih =>
    have hx : x.Name ≠ name := h x (List.mem_cons_self _ _)
    simp only [portLoop, hx, if_false]
    exact ih (fun y hy => h y (List.mem_cons_of_mem _ hy))

theorem portLoop_first (before after : List ContainerPort) (cp : ContainerPort) (name : String)
    (hb : ∀ x ∈ before, x.Name ≠ name) (hcp : cp.Name = name) :
    portLoop (before ++ cp :: after) name = some cp.ContainerPort := by
  rw [portLoop_append, portLoop_none before name hb]
  simp [portLoop, hcp]

/-- C7: when the Service declares the port `remotePort` (its last declaration
of that number being `p`) and has a non-empty pod list, `RedirectService`
forwards `localPort` to the first pod of the list, on the numeric target
itself, or for a named target on the `ContainerPort` of the first container
port of that name in the first pod's containers taken in order; the resolved
pod port is not the sentinel `-1`. -/
theorem RedirectService_forwards (c : Cluster) (ns serviceName : String)
    (localPort remotePort : Int) (svc : Service) (pre post : List ServicePort)
    (p : ServicePort) (pod0 : Pod) (rest : List Pod)
    (hsvc : c.GetService serviceName ns = .ok svc)
    (hports : svc.Ports = pre ++ p :: post) (hp : p.Port = remotePort)
    (hlast : ∀ q ∈ post, q.Port ≠ remotePort)
    (hpods : c.GetPodsByLabel svc.Selector ns = .ok (pod0 :: rest)) :
    (p.TargetPort.Type_ = 0 → p.TargetPort.IntVal ≠ -1 →
      RedirectService c ns serviceName localPort remotePort =
        Redirect.SetupPortForwardToLocal pod0.Name p.TargetPort.IntVal localPort) ∧
    (p.TargetPort.Type_ = 1 →
      ∀ (before after : List ContainerPort) (cp : ContainerPort),
        pod0.Containers.flatMap Container.Ports = before ++ cp :: after →
        (∀ x ∈ before, x.Name ≠ p.TargetPort.StrVal) → cp.Name = p.TargetPort.StrVal →
        cp.ContainerPort ≠ -1 →
        RedirectService c ns serviceName localPort remotePort =
          Redirect.SetupPortForwardToLocal pod0.Name cp.ContainerPort localPort) := by
  have htp : findTargetPort svc.Ports remotePort = p.TargetPort := by
    rw [hports]
    exact findTargetPort_last pre post p remotePort hp hlast
  constructor
  · intro h0 hne
    unfold RedirectService
    simp only [hsvc, htp, h0, hpods]
    simp [hne]
  · intro h1 before after cp hflat hb hcp hne
    unfold RedirectService
    simp only [hsvc, htp, h1, hpods]
    rw [containerLoop_flat, hflat, portLoop_first before after cp _ hb hcp]
    simp [hne]

/-- Witness for C7: the port 8080 of `web` has the named target `web`, which the
first pod `web-0` declares as 3000 in its second container. -/
theorem RedirectService_forwards_witness :
    RedirectService demoCluster "default" "web" 18080 8080 =
      Redirect.SetupPortForwardToLocal "web-0" 3000 18080 :=
  (RedirectService_forwards demoCluster "default" "web" 18080 8080 webService []
    [⟨9000, ⟨0, 9001, ""⟩⟩, ⟨8443, ⟨1, 0, "https"⟩⟩] ⟨8080, ⟨1, 0, "web"⟩⟩
    ⟨"web-0", "10.1.0.7", [⟨[⟨"metrics", 9100⟩]⟩, ⟨[⟨"web", 3000⟩, ⟨"web", 3001⟩]⟩]⟩
    [⟨"web-1", "10.1.0.8", [⟨[⟨"web", 4000⟩]⟩]⟩] rfl rfl rfl (by decide) rfl).2 rfl
    [⟨"metrics", 9100⟩] [⟨"web", 3001⟩] ⟨"web", 3000⟩ rfl (by decide) rfl (by decide)


theorem redirect_messages_distinct (remotePort : Int) (serviceName : String) :
    "port " ++ toString remotePort ++ " not available for service " ++ serviceName ≠
      "no pod available for service " ++ serviceName ∧
    "port " ++ toString remotePort ++ " not available for service " ++ serviceName ≠
      "port " ++ toString remotePort ++ " not fit for any pod of service " ++ serviceName ∧
    "no pod available for service " ++ serviceName ≠
      "port " ++ toString remotePort ++ " not fit for any pod of service " ++ serviceName := by
  refine ⟨?_, ?_, ?_⟩
  · intro h
    have hd := congrArg String.data h
    simp [String.data_append] at hd
  · intro h
    have hd := congrArg String.data h
    simp [String.data_append] at hd
  · intro h
    have hd := congrArg String.data h
    simp [String.data_append] at hd

/-- C8: `RedirectService` returns the error "port ... not available for
service" when no declared port has the number `remotePort`, the error "no pod
available for service" when the port is declared and the pod list is empty, and
the error "port ... not fit for any pod of service" when the declared port has
a named target that no container port of the first pod carries; the three
messages are pairwise distinct, and a call that returns an error makes no call
of the forwarding primitive. -/
theorem RedirectService_failures (c : Cluster) (ns serviceName : String)
    (localPort remotePort : Int) (svc : Service)
    (hsvc : c.GetService serviceName ns = .ok svc) :
    ((∀ q ∈ svc.Ports, q.Port ≠ remotePort) →
      RedirectService c ns serviceName localPort remotePort =
        Redirect.error
          ("port " ++ toString remotePort ++ " not available for service " ++ serviceName)) ∧
    (∀ (pre post : List ServicePort) (p : ServicePort),
      svc.Ports = pre ++ p :: post → p.Port = remotePort →
      (∀ q ∈ post, q.Port ≠ remotePort) → p.TargetPort.Type_ ≠ -1 →
      c.GetPodsByLabel svc.Selector ns = .ok [] →
      RedirectService c ns serviceName localPort remotePort =
        Redirect.error ("no pod available for service " ++ serviceName)) ∧
    (∀ (pre post : List ServicePort) (p : ServicePort) (pod0 : Pod) (rest : List Pod),
      svc.Ports = pre ++ p :: post → p.Port = remotePort →
      (∀ q ∈ post, q.Port ≠ remotePort) → p.TargetPort.Type_ = 1 →
      c.GetPodsByLabel svc.Selector ns = .ok (pod0 :: rest) →
      (∀ ct ∈ pod0.Containers, ∀ cp ∈ ct.Ports, cp.Name ≠ p.TargetPort.StrVal) →
      RedirectService c ns serviceName localPort remotePort =
        Redirect.error
          ("port " ++ toString remotePort ++ " not fit for any pod of service " ++
            serviceName)) ∧
    ("port " ++ toString remotePort ++ " not available for service " ++ serviceName ≠
        "no pod available for service " ++ serviceName ∧
      "port " ++ toString remotePort ++ " not available for service " ++ serviceName ≠
        "port " ++ toString remotePort ++ " not fit for any pod of service " ++ serviceName ∧
      "no pod available for service " ++ serviceName ≠
        "port " ++ toString remotePort ++ " not fit for any pod of service " ++ serviceName) ∧
    (∀ message, RedirectService c ns serviceName localPort remotePort = Redirect.error message →
      ∀ podName podPort port, RedirectService c ns serviceName localPort remotePort ≠
        Redirect.SetupPortForwardToLocal podName podPort port) := by
  refine ⟨?_, ?_, ?_, redirect_messages_distinct remotePort serviceName, ?_⟩
  · intro hnone
    unfold RedirectService
    simp [hsvc, findTargetPort_none svc.Ports remotePort hnone]
  · intro pre post p hports hp hlast hty hpods
    have htp : findTargetPort svc.Ports remotePort = p.TargetPort := by
      rw [hports]
      exact findTargetPort_last pre post p remotePort hp hlast
    unfold RedirectService
    simp [hsvc, htp, hty, hpods]
  · intro pre post p pod0 rest hports hp hlast hty hpods hnot
    have htp : findTargetPort svc.Ports remotePort = p.TargetPort := by
      rw [hports]
      exact findTargetPort_last pre post p remotePort hp hlast
    have hloop : portLoop (pod0.Containers.flatMap Container.Ports) p.TargetPort.StrVal
        = none := by
      apply portLoop_none
      intro x hx
      obtain ⟨ct, hct, hxc⟩ := List.mem_flatMap.1 hx
      exact hnot ct hct x hxc
    unfold RedirectService
    simp only [hsvc, htp, hty, hpods]
    rw [containerLoop_flat, hloop]
    simp
  · intro message hm podName podPort port hf
    rw [hm] at hf
    exact Redirect.noConfusion hf

/-- Witness for C8 on `forwardCluster`: no port 9090 on `web`; the port 80 of
`idle` is declared but `idle` has no pod; the port 8443 of `web` has the named
target `https`, which no container of `web-0` declares. -/
theorem RedirectService_failures_witness :
    RedirectService forwardCluster "default" "web" 18080 9090 =
      Redirect.error ("port " ++ toString (9090 : Int) ++ " not available for service " ++
        "web") ∧
    RedirectService forwardCluster "default" "idle" 18080 80 =
      Redirect.error ("no pod available for service " ++ "idle") ∧
    RedirectService forwardCluster "default" "web" 18080 8443 =
      Redirect.error ("port " ++ toString (8443 : Int) ++
        " not fit for any pod of service " ++ "web") :=
  ⟨(RedirectService_failures forwardCluster "default" "web" 18080 9090 webService rfl).1
      (by decide),
    (RedirectService_failures forwardCluster "default" "idle" 18080 80 idleService rfl).2.1
      [] [] ⟨80, ⟨0, 8080, ""⟩⟩ rfl rfl (by decide) (by decide) rfl,
    (RedirectService_failures forwardCluster "default" "web" 18080 8443 webService rfl).2.2.1
      [⟨8080, ⟨1, 0, "web"⟩⟩, ⟨9000, ⟨0, 9001, ""⟩⟩] [] ⟨8443, ⟨1, 0, "https"⟩⟩
      ⟨"web-0", "10.1.0.7", [⟨[⟨"metrics", 9100⟩]⟩, ⟨[⟨"web", 3000⟩, ⟨"web", 3001⟩]⟩]⟩
      [⟨"web-1", "10.1.0.8", [⟨[⟨"web", 4000⟩]⟩]⟩] rfl rfl (by decide) rfl rfl (by decide)⟩


/-! ## Rebuilds in local-dns mode -/

theorem getServiceHosts_error (c : Cluster) (ns e : String)
    (herr : c.GetAllServiceInNamespace ns = .error e) : getServiceHosts c ns = ([], []) := by
  unfold getServiceHosts
  rw [herr]

theorem dumpToHostTable_error (c : Cluster) (ns cd e : String)
    (hperm : ∀ m, (c.rangeOrder m).Perm m)
    (herr : c.GetAllServiceInNamespace ns = .error e) : dumpToHostTable c ns "" cd = [] := by
  have hnil : c.rangeOrder [] = [] := List.Perm.eq_nil (hperm [])
  rw [dumpToHostTable_eq, namespacesToDump_empty]
  simp [nsPuts, getServiceHosts_error c ns e herr, hnil, putAll]

/-- C9, refuted as stated: after a rebuild that dumped two entries and tracked
the pod `db-1`, a rebuild whose Service enumeration fails passes the empty
mapping to `DumpHosts` and leaves the handler with an empty headless pod list. -/
theorem rebuild_failure_clears_table :
    dumpCurrentNamespaceToHost demoCluster demoHost "default" =
      ([Effect.DumpHosts [("web", "10.0.0.1"), ("db", "10.1.0.5")]], ["db-1"], none) ∧
    onServiceUpdate downCluster demoHost "default" ["db-1"] = ([Effect.DumpHosts []], []) ∧
    dumpCurrentNamespaceToHost downCluster demoHost "default" =
      ([Effect.DumpHosts []], [], none) ∧
    dumpToHost downCluster demoHost "default" "" "cluster.local" =
      ([Effect.DumpHosts []], none) := by
  decide

/-- C9, amended: when enumerating the Services of the namespace fails,
`getServiceHosts` yields the empty table and the empty pod list, so
`dumpCurrentNamespaceToHost` and `dumpToHost` pass the empty mapping to
`DumpHosts` without returning the enumeration error, and the watch handler
replaces the tracked headless pod list by the empty list. -/
theorem rebuild_failure_dumps_empty (c : Cluster) (h : Host) (ns cd e : String)
    (hperm : ∀ m, (c.rangeOrder m).Perm m)
    (herr : c.GetAllServiceInNamespace ns = .error e) :
    getServiceHosts c ns = ([], []) ∧
    dumpCurrentNamespaceToHost c h ns = ([Effect.DumpHosts []], [], h.DumpHosts []) ∧
    dumpToHost c h ns "" cd = ([Effect.DumpHosts []], h.DumpHosts []) ∧
    (∀ headlessPods : List String,
      onServiceUpdate c h ns headlessPods = ([Effect.DumpHosts []], [])) := by
  have hg := getServiceHosts_error c ns e herr
  refine ⟨hg, ?_, ?_, ?_⟩
  · simp [dumpCurrentNamespaceToHost, hg]
  · simp [dumpToHost, dumpToHostTable_error c ns cd e hperm herr]
  · intro headlessPods
    simp [onServiceUpdate, dumpCurrentNamespaceToHost, hg]

/-- Witness for C9 as amended: the unreachable cluster `downCluster`. -/
theorem rebuild_failure_dumps_empty_witness :
    dumpCurrentNamespaceToHost downCluster demoHost "default" =
      ([Effect.DumpHosts []], [], demoHost.DumpHosts []) :=
  (rebuild_failure_dumps_empty downCluster demoHost "default" "cluster.local"
    "connection refused" (fun m => List.reverse_perm m) rfl).2.1

/-- C10, refuted as stated: on `demoCluster` the mapping dumped in local-dns
mode has no entry for `web.default`, which the hosts dump of the same
namespace maps to the IP of `web`. -/
theorem local_dns_table_differs :
    dumpCurrentNamespaceToHost demoCluster demoHost "default" =
      ([Effect.DumpHosts [("web", "10.0.0.1"), ("db", "10.1.0.5")]], ["db-1"], none) ∧
    dumpToHost demoCluster demoHost "default" "" "cluster.local" =
      ([Effect.DumpHosts [("db", "10.1.0.5"), ("db.default", "10.1.0.5"),
          ("db.default.svc.cluster.local", "10.1.0.5"), ("web", "10.0.0.1"),
          ("web.default", "10.0.0.1"), ("web.default.svc.cluster.local", "10.0.0.1")]],
        none) ∧
    GoMap.get [("web", "10.0.0.1"), ("db", "10.1.0.5")] "web.default" = none ∧
    GoMap.get [("db", "10.1.0.5"), ("db.default", "10.1.0.5"),
      ("db.default.svc.cluster.local", "10.1.0.5"), ("web", "10.0.0.1"),
      ("web.default", "10.0.0.1"), ("web.default.svc.cluster.local", "10.0.0.1")]
      "web.default" = some "10.0.0.1" := by
  decide

/-- C10, amended: the mapping `dumpCurrentNamespaceToHost` passes to `DumpHosts`
is the table of `getServiceHosts`, which holds the bare name of every resolved
Service and neither qualified name; `dumpToHost` on the same namespace maps each
of these bare names to the same IP and holds the two qualified names as well. -/
theorem local_dns_table_bare_names (c : Cluster) (h : Host) (ns cd : String)
    (hperm : ∀ m, (c.rangeOrder m).Perm m) (hns : dotFree ns)
    (hsvc : ∀ k ∈ (getServiceHosts c ns).1.keys, dotFree k) :
    dumpCurrentNamespaceToHost c h ns =
      ([Effect.DumpHosts (getServiceHosts c ns).1], (getServiceHosts c ns).2,
        h.DumpHosts (getServiceHosts c ns).1) ∧
    dumpToHost c h ns "" cd =
      ([Effect.DumpHosts (dumpToHostTable c ns "" cd)],
        h.DumpHosts (dumpToHostTable c ns "" cd)) ∧
    (∀ svc ip, (getServiceHosts c ns).1.get svc = some ip →
      (dumpToHostTable c ns "" cd).get svc = some ip ∧
      (dumpToHostTable c ns "" cd).get (svc ++ "." ++ ns) = some ip ∧
      (dumpToHostTable c ns "" cd).get (svc ++ "." ++ ns ++ ".svc." ++ cd) = some ip ∧
      (getServiceHosts c ns).1.get (svc ++ "." ++ ns) = none ∧
      (getServiceHosts c ns).1.get (svc ++ "." ++ ns ++ ".svc." ++ cd) = none) := by
  refine ⟨rfl, rfl, ?_⟩
  intro svc ip hget
  have hns' : ∀ x ∈ [ns], dotFree x := by
    intro x hx
    rw [List.mem_singleton.1 hx]
    exact hns
  have hsvc' : ∀ x ∈ [ns], ∀ k ∈ (getServiceHosts c x).1.keys, dotFree k := by
    intro x hx
    rw [List.mem_singleton.1 hx]
    exact hsvc
  have hg := dumpTable_get c ns cd [ns] hperm hns' hsvc' ns (List.mem_singleton.2 rfl) svc ip hget
  rw [dumpToHostTable_eq, namespacesToDump_empty]
  refine ⟨hg.2.2 rfl, hg.1, hg.2.1, ?_, ?_⟩
  · rw [GoMap.get_eq_none_iff]
    intro hk
    have hd := hsvc _ hk
    rw [dotFree, qualified_data] at hd
    exact hd (by simp)
  · rw [GoMap.get_eq_none_iff]
    intro hk
    have hd := hsvc _ hk
    rw [dotFree, full_data] at hd
    exact hd (by simp)

/-- Witness for C10 as amended: the Service `web` of `demoCluster`. -/
theorem local_dns_table_bare_names_witness :
    (dumpToHostTable demoCluster "default" "" "cluster.local").get "web" = some "10.0.0.1" ∧
    (getServiceHosts demoCluster "default").1.get ("web" ++ "." ++ "default") = none :=
  ⟨((local_dns_table_bare_names demoCluster demoHost "default" "cluster.local"
      (fun m => List.reverse_perm m) (by decide) (by decide)).2.2
      "web" "10.0.0.1" (by decide)).1,
    ((local_dns_table_bare_names demoCluster demoHost "default" "cluster.local"
      (fun m => List.reverse_perm m) (by decide) (by decide)).2.2
      "web" "10.0.0.1" (by decide)).2.2.2.1⟩


/-! ## `getMeshLabels`, `manualMesh`, `autoMesh` -/

theorem getMeshLabels_eq_putAll (n : MeshNames) (order : GoMap → GoMap)
    (workload meshVersion : String) (d : Deployment) :
    getMeshLabels n order workload meshVersion (some d) =
      putAll (meshMarkers n workload meshVersion) (order d.MatchLabels) := rfl

theorem meshMarkers_get (n : MeshNames) (workload meshVersion : String)
    (h12 : n.ControlBy ≠ n.KTComponent) (h13 : n.ControlBy ≠ n.KTName)
    (h14 : n.ControlBy ≠ n.KTVersion) (h23 : n.KTComponent ≠ n.KTName)
    (h24 : n.KTComponent ≠ n.KTVersion) (h34 : n.KTName ≠ n.KTVersion) :
    (meshMarkers n workload meshVersion).get n.ControlBy = some n.KubernetesTool ∧
    (meshMarkers n workload meshVersion).get n.KTComponent = some n.ComponentMesh ∧
    (meshMarkers n workload meshVersion).get n.KTName = some workload ∧
    (meshMarkers n workload meshVersion).get n.KTVersion = some meshVersion := by
  simp [meshMarkers, GoMap.get_put, h12, h13, h14, h23, h24, h34, Ne.symm h12, Ne.symm h13,
    Ne.symm h14, Ne.symm h23, Ne.symm h24, Ne.symm h34]

/-- The label set when the selector shares no key with the four markers: every
selector entry and the four markers with their values. -/
theorem getMeshLabels_disjoint (n : MeshNames) (order : GoMap → GoMap)
    (workload meshVersion : String) (d : Deployment)
    (hperm : ∀ m, (order m).Perm m) (hnd : d.MatchLabels.keys.Nodup)
    (h12 : n.ControlBy ≠ n.KTComponent) (h13 : n.ControlBy ≠ n.KTName)
    (h14 : n.ControlBy ≠ n.KTVersion) (h23 : n.KTComponent ≠ n.KTName)
    (h24 : n.KTComponent ≠ n.KTVersion) (h34 : n.KTName ≠ n.KTVersion)
    (hdis : ∀ k ∈ d.MatchLabels.keys,
      k ≠ n.ControlBy ∧ k ≠ n.KTComponent ∧ k ≠ n.KTName ∧ k ≠ n.KTVersion) :
    (∀ k v, d.MatchLabels.get k = some v →
      (getMeshLabels n order workload meshVersion (some d)).get k = some v) ∧
    (getMeshLabels n order workload meshVersion (some d)).get n.ControlBy
      = some n.KubernetesTool ∧
    (getMeshLabels n order workload meshVersion (some d)).get n.KTComponent
      = some n.ComponentMesh ∧
    (getMeshLabels n order workload meshVersion (some d)).get n.KTName = some workload ∧
    (getMeshLabels n order workload meshVersion (some d)).get n.KTVersion
      = some meshVersion := by
  have hm := meshMarkers_get n workload meshVersion h12 h13 h14 h23 h24 h34
  have hp := hperm d.MatchLabels
  have hnot : ∀ key, (∀ k ∈ d.MatchLabels.keys, k ≠ key) →
      key ∉ (order d.MatchLabels).map Prod.fst := by
    intro key hk hmem
    exact hk key (((hp.map Prod.fst).mem_iff).1 hmem) rfl
  rw [getMeshLabels_eq_putAll]
  refine ⟨?_, ?_, ?_, ?_, ?_⟩
  · intro k v hget
    apply get_putAll_of_mem
    · intro a b b' hb hb'
      have g1 := GoMap.get_of_mem _ _ _ hnd (hp.mem_iff.1 hb)
      have g2 := GoMap.get_of_mem _ _ _ hnd (hp.mem_iff.1 hb')
      rw [g1] at g2
      exact Option.some.inj g2
    · exact hp.mem_iff.2 (GoMap.mem_of_get _ _ _ hget)
  · rw [get_putAll_of_not_mem _ _ _ (hnot _ (fun k hk => (hdis k hk).1))]
    exact hm.1
  · rw [get_putAll_of_not_mem _ _ _ (hnot _ (fun k hk => (hdis k hk).2.1))]
    exact hm.2.1
  · rw [get_putAll_of_not_mem _ _ _ (hnot _ (fun k hk => (hdis k hk).2.2.1))]
    exact hm.2.2.1
  · rw [get_putAll_of_not_mem _ _ _ (hnot _ (fun k hk => (hdis k hk).2.2.2))]
    exact hm.2.2.2

/-- C11: a selector entry under the key of a marker replaces the marker: for
the Deployment `reviews`, whose selector has `version=v1`, the label set of
`getMeshLabels` maps the version key to `v1` and not to the mesh version
`abcde`; with a nil deployment the label set is the four markers. -/
theorem getMeshLabels_selector_replaces_marker :
    getMeshLabels demoMeshNames List.reverse "reviews-kt-abcde" "abcde"
        (some reviewsDeployment) =
      [("control-by", "kt"), ("kt-component", "mesh"), ("kt-name", "reviews-kt-abcde"),
        ("version", "v1"), ("app", "reviews")] ∧
    (getMeshLabels demoMeshNames List.reverse "reviews-kt-abcde" "abcde"
        (some reviewsDeployment)).get demoMeshNames.KTVersion = some "v1" ∧
    (getMeshLabels demoMeshNames id "reviews-kt-abcde" "abcde"
        (some reviewsDeployment)).get demoMeshNames.KTVersion = some "v1" ∧
    getMeshLabels demoMeshNames List.reverse "reviews-kt-abcde" "abcde" none =
      [("control-by", "kt"), ("kt-component", "mesh"), ("kt-name", "reviews-kt-abcde"),
        ("version", "abcde")] := by
  decide

theorem length_eq_zero_iff_empty (s : String) : s.length = 0 ↔ s = "" := by
  rcases s with ⟨d⟩
  cases d with
  | nil => exact ⟨fun _ => rfl, fun _ => rfl⟩
  | cons x t =>
    constructor
    · intro h
      have h' : (x :: t).length = 0 := h
      simp at h'
    · intro h
      exact absurd (congrArg String.data h) (by simp)

theorem ToLower_length (s : String) : (ToLower s).length = s.length := by
  rcases s with ⟨d⟩
  show (d.map Char.toLower).length = d.length
  simp

theorem toLower_not_upper (ch : Char) :
    ¬ (65 ≤ ch.toLower.toNat ∧ ch.toLower.toNat ≤ 90) := by
  unfold Char.toLower
  by_cases h : ch.toNat ≥ 65 ∧ ch.toNat ≤ 90
  · rw [if_pos h]
    obtain ⟨h1, h2⟩ := h
    generalize ch.toNat = m at h1 h2
    interval_cases m <;> decide
  · rw [if_neg h]
    exact h

/-- The string `ToLower s` is `s` with every letter from `A` to `Z` (code points 65
to 90) replaced by the letter 32 code points further and every other character
kept. -/
theorem ToLower_data (s : String) :
    (ToLower s).data =
      s.data.map (fun ch =>
        if 65 ≤ ch.toNat ∧ ch.toNat ≤ 90 then Char.ofNat (ch.toNat + 32) else ch) := rfl

/-- No letter from `A` to `Z` is left in `ToLower s`. -/
theorem ToLower_no_upper (s : String) :
    ∀ ch ∈ (ToLower s).data, ¬ (65 ≤ ch.toNat ∧ ch.toNat ≤ 90) := by
  intro ch hch
  obtain ⟨c0, _, rfl⟩ := List.mem_map.1 hch
  exact toLower_not_upper c0

/-- What holds of `manualMesh` for every Deployment found: the shadow is
requested under the name `<deployment name>-kt-<version>`, where the version is
`MeshOptions.Version` when that is non-empty and otherwise `ToLower` of
`RandomString(5)`; the labels of the request are those of `getMeshLabels` on
this name and this version, and the map literal of `getMeshLabels` writes the
name under `KTName` and the version under `KTVersion` before the selector
labels are copied. -/
theorem manualMesh_shadow_name (n : MeshNames) (k : Kubernetes) (deploymentName : String)
    (options : DaemonOptions) (app : Deployment)
    (hdep : k.Deployment deploymentName options.Namespace = .ok app)
    (hkeys : n.KTName ≠ n.KTVersion) :
    (∃ rest, (manualMesh n k deploymentName options).1 =
      MeshEffect.Deployment deploymentName options.Namespace ::
        MeshEffect.GetOrCreateShadow
          ⟨app.Name ++ "-kt-" ++ getVersion k options,
            getMeshLabels n k.rangeOrder (app.Name ++ "-kt-" ++ getVersion k options)
              (getVersion k options) (some app), [], []⟩ :: rest) ∧
    (options.MeshOptions.Version ≠ "" → getVersion k options = options.MeshOptions.Version) ∧
    (options.MeshOptions.Version = "" →
      getVersion k options = ToLower (k.RandomString 5) ∧
      ((k.RandomString 5).length = 5 → (getVersion k options).length = 5)) ∧
    getMeshLabels n k.rangeOrder (app.Name ++ "-kt-" ++ getVersion k options)
        (getVersion k options) (some app) =
      (k.rangeOrder app.MatchLabels).foldl (fun acc e => acc.put e.1 e.2)
        (meshMarkers n (app.Name ++ "-kt-" ++ getVersion k options) (getVersion k options)) ∧
    (meshMarkers n (app.Name ++ "-kt-" ++ getVersion k options) (getVersion k options)).get
        n.KTName = some (app.Name ++ "-kt-" ++ getVersion k options) ∧
    (meshMarkers n (app.Name ++ "-kt-" ++ getVersion k options) (getVersion k options)).get
        n.KTVersion = some (getVersion k options) := by
  refine ⟨?_, ?_, ?_, rfl, ?_, ?_⟩
  · unfold manualMesh
    simp only [hdep]
    unfold createShadowAndInbound
    dsimp only
    split
    · exact ⟨[], rfl⟩
    · exact ⟨_, rfl⟩
  · intro hv
    have hl : options.MeshOptions.Version.length ≠ 0 :=
      fun h0 => hv ((length_eq_zero_iff_empty _).1 h0)
    simp [getVersion, hl]
  · intro hv
    have hg : getVersion k options = ToLower (k.RandomString 5) := by
      simp [getVersion, hv]
    refine ⟨hg, ?_⟩
    intro h5
    rw [hg, ToLower_length, h5]
  · simp [meshMarkers, GoMap.get_put, hkeys, Ne.symm hkeys]
  · simp [meshMarkers, GoMap.get_put]

/-- The Deployment `tomcat`, whose selector shares no key with the markers,
with the version `v2`. -/
theorem manualMesh_shadow_name_witness :
    getVersion demoKubernetes versionedOptions = versionedOptions.MeshOptions.Version ∧
    (meshMarkers demoMeshNames (tomcatDeployment.Name ++ "-kt-" ++
        getVersion demoKubernetes versionedOptions)
      (getVersion demoKubernetes versionedOptions)).get demoMeshNames.KTVersion =
      some (getVersion demoKubernetes versionedOptions) ∧
    (manualMesh demoMeshNames demoKubernetes "tomcat" versionedOptions).1 =
      [MeshEffect.Deployment "tomcat" "default",
        MeshEffect.GetOrCreateShadow ⟨"tomcat-kt-v2",
          [("control-by", "kt"), ("kt-component", "mesh"), ("kt-name", "tomcat-kt-v2"),
            ("version", "v2"), ("app", "tomcat")], [], []⟩,
        MeshEffect.Inbound "8080" "tomcat-kt-v2-0"] :=
  ⟨(manualMesh_shadow_name demoMeshNames demoKubernetes "tomcat" versionedOptions
      tomcatDeployment rfl (by decide)).2.1 (by decide),
    (manualMesh_shadow_name demoMeshNames demoKubernetes "tomcat" versionedOptions
      tomcatDeployment rfl (by decide)).2.2.2.2.2, by decide⟩

/-- C12: for the Deployment `reviews`, whose selector has `version=v1`, and the
caller-supplied version `v2`, `manualMesh` requests the shadow `reviews-kt-v2`
with a label set in which the version key holds `v1`, not `v2`: the selector
entry has replaced the version written by the map literal.  Name and version
are derived as claimed, also with the random version `xkqzp` for `tomcat`. -/
theorem manualMesh_version_label_replaced :
    demoKubernetes.Deployment "reviews" versionedOptions.Namespace = .ok reviewsDeployment ∧
    getVersion demoKubernetes versionedOptions = "v2" ∧
    (manualMesh demoMeshNames demoKubernetes "reviews" versionedOptions).1 =
      [MeshEffect.Deployment "reviews" "default",
        MeshEffect.GetOrCreateShadow ⟨"reviews-kt-v2",
          [("control-by", "kt"), ("kt-component", "mesh"), ("kt-name", "reviews-kt-v2"),
            ("version", "v1"), ("app", "reviews")], [], []⟩,
        MeshEffect.Inbound "8080" "reviews-kt-v2-0"] ∧
    (getMeshLabels demoMeshNames demoKubernetes.rangeOrder "reviews-kt-v2" "v2"
      (some reviewsDeployment)).get demoMeshNames.KTVersion = some "v1" ∧
    (getMeshLabels demoMeshNames id "reviews-kt-v2" "v2"
      (some reviewsDeployment)).get demoMeshNames.KTVersion = some "v1" ∧
    (manualMesh demoMeshNames demoKubernetes "tomcat" autoOptions).1 =
      [MeshEffect.Deployment "tomcat" "default",
        MeshEffect.GetOrCreateShadow ⟨"tomcat-kt-xkqzp",
          [("control-by", "kt"), ("kt-component", "mesh"), ("kt-name", "tomcat-kt-xkqzp"),
            ("version", "xkqzp"), ("app", "tomcat")], [], []⟩,
        MeshEffect.Inbound "8080" "tomcat-kt-xkqzp-0"] :=
  ⟨rfl, by decide, by decide, by decide, by decide, by decide⟩

/-- C13: `autoMesh` returns no error, makes no call and leaves the options as
they are, and so does the choice of the mesh method when the method is `auto`. -/
theorem autoMesh_noop (n : MeshNames) (k : Kubernetes) (deploymentName : String)
    (options : DaemonOptions) :
    autoMesh n k deploymentName options = ([], options, none) ∧
    (autoMesh n k deploymentName options).2.1.RuntimeOptions = options.RuntimeOptions ∧
    (options.MeshOptions.Method = n.MeshMethodAuto → n.MeshMethodManual ≠ n.MeshMethodAuto →
      meshByMethod n k deploymentName options = ([], options, none)) := by
  refine ⟨rfl, rfl, ?_⟩
  intro hm hne
  simp [meshByMethod, hm, Ne.symm hne, autoMesh]

/-- Witness for C13: the method `auto` on `demoKubernetes`. -/
theorem autoMesh_noop_witness :
    meshByMethod demoMeshNames demoKubernetes "tomcat" autoOptions = ([], autoOptions, none) :=
  (autoMesh_noop demoMeshNames demoKubernetes "tomcat" autoOptions).2.2 rfl (by decide)


/-! ## `getOrCreateShadow` and `getEnvs` -/

/-- C14: with `SharedShadow` set, `getOrCreateShadow` requests the name
`kt-connect-shadow-daemon` whatever `util.RandomString` returns, so two
sessions request the same name; without it, the requested name is
`kt-connect-shadow-` followed by the lower-cased `RandomString(5)`: the suffix
is `RandomString(5)` with every letter from `A` to `Z` replaced by its lower-case
letter and every other character kept, so it has the same length and no
upper-case letter. -/
theorem shadowPodName_shared
    (GetOrCreateShadow : ShadowRequest → Except String (String × String × String))
    (n : ShadowNames) (o o' : Options) (RandomString RandomString' : Nat → String)
    (localDomains : String) :
    (getOrCreateShadow GetOrCreateShadow n o RandomString localDomains).1.name =
      shadowPodName o RandomString ∧
    (o.ConnectOptions.SharedShadow = true →
      shadowPodName o RandomString = "kt-connect-shadow-daemon" ∧
      shadowPodName o RandomString = shadowPodName o RandomString' ∧
      (o'.ConnectOptions.SharedShadow = true →
        shadowPodName o RandomString = shadowPodName o' RandomString')) ∧
    (o.ConnectOptions.SharedShadow = false →
      shadowPodName o RandomString = "kt-connect-shadow-" ++ ToLower (RandomString 5) ∧
      ((RandomString 5).length = 5 → (ToLower (RandomString 5)).length = 5) ∧
      (ToLower (RandomString 5)).data =
        (RandomString 5).data.map (fun ch =>
          if 65 ≤ ch.toNat ∧ ch.toNat ≤ 90 then Char.ofNat (ch.toNat + 32) else ch) ∧
      (∀ ch ∈ (ToLower (RandomString 5)).data, ¬ (65 ≤ ch.toNat ∧ ch.toNat ≤ 90)) ∧
      (shadowPodName o RandomString).data =
        "kt-connect-shadow-".data ++
          (RandomString 5).data.map (fun ch =>
            if 65 ≤ ch.toNat ∧ ch.toNat ≤ 90 then Char.ofNat (ch.toNat + 32) else ch)) := by
  refine ⟨?_, ?_, ?_⟩
  · unfold getOrCreateShadow
    dsimp only
    split <;> rfl
  · intro hs
    refine ⟨by simp [shadowPodName, hs], by simp [shadowPodName, hs], ?_⟩
    intro hs'
    simp [shadowPodName, hs, hs']
  · intro hs
    have hname : shadowPodName o RandomString =
        "kt-connect-shadow-" ++ ToLower (RandomString 5) := by
      simp [shadowPodName, hs]
    refine ⟨hname, ?_, rfl, ?_, ?_⟩
    · intro h5
      rw [ToLower_length, h5]
    · intro ch hch
      have hmap : ch ∈ (RandomString 5).data.map Char.toLower := hch
      obtain ⟨c0, _, hc0⟩ := List.mem_map.1 hmap
      rw [← hc0]
      exact toLower_not_upper c0
    · rw [hname, String.data_append]
      rfl

/-- Witness for C14: two shared sessions with different random strings, and a
session of its own, whose random string `XkQzP` gives the suffix `xkqzp`. -/
theorem shadowPodName_shared_witness :
    shadowPodName ⟨"default", false, ⟨"hosts", "cluster.local", true⟩⟩ (fun _ => "XkQzP") =
      shadowPodName ⟨"team-a", true, ⟨"local-dns", "cluster.local", true⟩⟩ (fun _ => "mBnTa") ∧
    shadowPodName ⟨"default", false, ⟨"hosts", "cluster.local", false⟩⟩ (fun _ => "XkQzP") =
      "kt-connect-shadow-xkqzp" :=
  ⟨((shadowPodName_shared (fun _ => .error "unreachable") demoShadowNames
      ⟨"default", false, ⟨"hosts", "cluster.local", true⟩⟩
      ⟨"team-a", true, ⟨"local-dns", "cluster.local", true⟩⟩
      (fun _ => "XkQzP") (fun _ => "mBnTa") "").2.1 rfl).2.2 rfl,
    ((shadowPodName_shared (fun _ => .error "unreachable") demoShadowNames
      ⟨"default", false, ⟨"hosts", "cluster.local", false⟩⟩
      ⟨"team-a", true, ⟨"local-dns", "cluster.local", true⟩⟩
      (fun _ => "XkQzP") (fun _ => "mBnTa") "").2.2 rfl).1.trans (by decide)⟩

/-- C16: for pairwise different variable names, the environment of `getEnvs`
holds the DNS protocol (`tcp` exactly in local-dns mode, else `udp`), the log
level (`debug` exactly when `Debug` is set, else `info`), the local domains
exactly when the hint string is non-empty, and no other variable. -/
theorem getEnvs_variables (n : ShadowNames) (o : Options) (localDomains : String)
    (h12 : n.EnvVarLocalDomains ≠ n.EnvVarDnsProtocol)
    (h13 : n.EnvVarLocalDomains ≠ n.EnvVarLogLevel)
    (h23 : n.EnvVarDnsProtocol ≠ n.EnvVarLogLevel) :
    (getEnvs n o localDomains).get n.EnvVarDnsProtocol =
      some (if o.ConnectOptions.DnsMode = DnsModeLocalDns then "tcp" else "udp") ∧
    ((getEnvs n o localDomains).get n.EnvVarDnsProtocol = some "tcp" ↔
      o.ConnectOptions.DnsMode = DnsModeLocalDns) ∧
    (getEnvs n o localDomains).get n.EnvVarLogLevel =
      some (if o.Debug = true then "debug" else "info") ∧
    ((getEnvs n o localDomains).get n.EnvVarLogLevel = some "debug" ↔ o.Debug = true) ∧
    (getEnvs n o localDomains).get n.EnvVarLocalDomains =
      (if localDomains ≠ "" then some localDomains else none) ∧
    (n.EnvVarLocalDomains ∈ (getEnvs n o localDomains).keys ↔ localDomains ≠ "") ∧
    (∀ k ∈ (getEnvs n o localDomains).keys,
      k = n.EnvVarLocalDomains ∨ k = n.EnvVarDnsProtocol ∨ k = n.EnvVarLogLevel) ∧
    (getEnvs n o localDomains).size = (if localDomains ≠ "" then 3 else 2) := by
  have e1 : (getEnvs n o localDomains).get n.EnvVarDnsProtocol =
      some (if o.ConnectOptions.DnsMode = DnsModeLocalDns then "tcp" else "udp") := by
    unfold getEnvs
    by_cases hl : localDomains = "" <;>
      by_cases hm : o.ConnectOptions.DnsMode = DnsModeLocalDns <;>
      by_cases hd : o.Debug = true <;>
      simp [hl, hm, hd, GoMap.get_put, GoMap.get, h12, h13, h23, Ne.symm h12, Ne.symm h13,
        Ne.symm h23]
  have e2 : (getEnvs n o localDomains).get n.EnvVarLogLevel =
      some (if o.Debug = true then "debug" else "info") := by
    unfold getEnvs
    by_cases hl : localDomains = "" <;>
      by_cases hm : o.ConnectOptions.DnsMode = DnsModeLocalDns <;>
      by_cases hd : o.Debug = true <;>
      simp [hl, hm, hd, GoMap.get_put, GoMap.get, h12, h13, h23, Ne.symm h12, Ne.symm h13,
        Ne.symm h23]
  have e3 : (getEnvs n o localDomains).get n.EnvVarLocalDomains =
      (if localDomains ≠ "" then some localDomains else none) := by
    unfold getEnvs
    by_cases hl : localDomains = "" <;>
      by_cases hm : o.ConnectOptions.DnsMode = DnsModeLocalDns <;>
      by_cases hd : o.Debug = true <;>
      simp [hl, hm, hd, GoMap.get_put, GoMap.get, h12, h13, h23, Ne.symm h12, Ne.symm h13,
        Ne.symm h23]
  refine ⟨e1, ?_, e2, ?_, e3, ?_, ?_, ?_⟩
  · rw [e1]
    by_cases hm : o.ConnectOptions.DnsMode = DnsModeLocalDns <;> simp [hm]
  · rw [e2]
    by_cases hd : o.Debug = true <;> simp [hd]
  · by_cases hl : localDomains = ""
    · have hnone := e3
      simp only [hl, ne_eq, not_true_eq_false, if_false] at hnone
      rw [hl]
      simpa using (GoMap.get_eq_none_iff _ _).1 hnone
    · have hsome := e3
      simp only [ne_eq, hl, not_false_eq_true, if_true] at hsome
      simp only [ne_eq, hl, not_false_eq_true, iff_true]
      exact mem_keys_of_mem _ _ _ (GoMap.mem_of_get _ _ _ hsome)
  · intro k hk
    have hnil : ∀ x : String, x ∈ GoMap.keys ([] : GoMap) ↔ False := by simp [GoMap.keys]
    unfold getEnvs at hk
    by_cases hl : localDomains = "" <;>
      by_cases hm : o.ConnectOptions.DnsMode = DnsModeLocalDns <;>
      by_cases hd : o.Debug = true <;>
      simp only [hl, hm, hd, ne_eq, not_true_eq_false, not_false_eq_true, if_true, if_false,
        GoMap.mem_keys_put, hnil, Bool.false_eq_true] at hk <;> tauto
  · unfold getEnvs
    by_cases hl : localDomains = "" <;>
      by_cases hm : o.ConnectOptions.DnsMode = DnsModeLocalDns <;>
      by_cases hd : o.Debug = true <;>
      simp [hl, hm, hd, GoMap.put, GoMap.size, h12, h13, h23, Ne.symm h12, Ne.symm h13,
        Ne.symm h23]

/-- Witness for C16: local-dns mode with `Debug` and a local domain. -/
theorem getEnvs_variables_witness :
    (getEnvs demoShadowNames ⟨"default", true, ⟨"local-dns", "cluster.local", false⟩⟩
      "corp.example").get demoShadowNames.EnvVarDnsProtocol =
      some (if "local-dns" = DnsModeLocalDns then "tcp" else "udp") ∧
    getEnvs demoShadowNames ⟨"default", true, ⟨"local-dns", "cluster.local", false⟩⟩
      "corp.example" =
      [("KT_LOCAL_DOMAIN", "corp.example"), ("KT_DNS_PROTOCOL", "tcp"),
        ("KT_LOG_LEVEL", "debug")] :=
  ⟨(getEnvs_variables demoShadowNames
      ⟨"default", true, ⟨"local-dns", "cluster.local", false⟩⟩ "corp.example"
      (by decide) (by decide) (by decide)).1, by decide⟩

/-! ## The watch handlers -/

theorem Contains_iff (obj : String) (target : List String) :
    Contains obj target = true ↔ obj ∈ target := by
  induction target with
  | nil => simp [Contains]
  | cons x t ih =>
    by_cases hx : x = obj
    · simp [Contains, hx]
    · simp only [Contains, hx, if_false, ih, List.mem_cons]
      constructor
      · exact Or.inr
      · rintro (h | h)
        · exact absurd h.symm hx
        · exact h

/-- C17: the Service-add handler rebuilds the host table exactly when the
event's Unix second minus `setupTime` is greater than 3; with a difference from
0 to 3 it makes no call and keeps the tracked pod list. -/
theorem onServiceAdd_debounce (c : Cluster) (h : Host) (ns : String) (setupTime now : Int)
    (headlessPods : List String) :
    (now - setupTime > 3 →
      onServiceAdd c h ns setupTime now headlessPods =
        ((dumpCurrentNamespaceToHost c h ns).1, (dumpCurrentNamespaceToHost c h ns).2.1) ∧
      (onServiceAdd c h ns setupTime now headlessPods).1 =
        [Effect.DumpHosts (getServiceHosts c ns).1]) ∧
    (¬ now - setupTime > 3 →
      onServiceAdd c h ns setupTime now headlessPods = ([], headlessPods)) ∧
    (0 ≤ now - setupTime ∧ now - setupTime ≤ 3 →
      onServiceAdd c h ns setupTime now headlessPods = ([], headlessPods)) ∧
    ((∃ hosts, Effect.DumpHosts hosts ∈ (onServiceAdd c h ns setupTime now headlessPods).1) ↔
      now - setupTime > 3) := by
  have hyes : now - setupTime > 3 →
      onServiceAdd c h ns setupTime now headlessPods =
        ((dumpCurrentNamespaceToHost c h ns).1, (dumpCurrentNamespaceToHost c h ns).2.1) := by
    intro hgt
    simp [onServiceAdd, hgt]
  have hno : ¬ now - setupTime > 3 →
      onServiceAdd c h ns setupTime now headlessPods = ([], headlessPods) := by
    intro hle
    simp only [onServiceAdd, hle, if_false]
  refine ⟨fun hgt => ⟨hyes hgt, ?_⟩, hno, fun hw => hno (by omega), ?_⟩
  · rw [hyes hgt]
    rfl
  · constructor
    · rintro ⟨hosts, hmem⟩
      by_contra hle
      rw [hno hle] at hmem
      simp at hmem
    · intro hgt
      refine ⟨(getServiceHosts c ns).1, ?_⟩
      rw [hyes hgt]
      simp [dumpCurrentNamespaceToHost]

/-- C18: `util.Contains` on a string and a slice of strings is true exactly when
the string is an element of the slice, and the pod-update handler rebuilds the
host table, after its delay, exactly when the name of the changed pod is in the
tracked headless pod list. -/
theorem onPodUpdate_tracked (c : Cluster) (h : Host) (ns : String) (pod : Pod)
    (headlessPods : List String) :
    (∀ (x : String) (xs : List String), Contains x xs = true ↔ ∃ y ∈ xs, y = x) ∧
    (∀ x : String, Contains x [] = false) ∧
    (pod.Name ∈ headlessPods →
      onPodUpdate c h ns pod headlessPods =
        (Effect.Sleep 5 :: (dumpCurrentNamespaceToHost c h ns).1,
          (dumpCurrentNamespaceToHost c h ns).2.1)) ∧
    (pod.Name ∉ headlessPods → onPodUpdate c h ns pod headlessPods = ([], headlessPods)) ∧
    ((∃ hosts, Effect.DumpHosts hosts ∈ (onPodUpdate c h ns pod headlessPods).1) ↔
      pod.Name ∈ headlessPods) := by
  have hyes : pod.Name ∈ headlessPods →
      onPodUpdate c h ns pod headlessPods =
        (Effect.Sleep 5 :: (dumpCurrentNamespaceToHost c h ns).1,
          (dumpCurrentNamespaceToHost c h ns).2.1) := by
    intro hin
    simp [onPodUpdate, (Contains_iff _ _).2 hin]
  have hno : pod.Name ∉ headlessPods →
      onPodUpdate c h ns pod headlessPods = ([], headlessPods) := by
    intro hout
    have hc : Contains pod.Name headlessPods = false := by
      cases hb : Contains pod.Name headlessPods with
      | false => rfl
      | true => exact absurd ((Contains_iff _ _).1 hb) hout
    simp [onPodUpdate, hc]
  refine ⟨?_, fun _ => rfl, hyes, hno, ?_⟩
  · intro x xs
    rw [Contains_iff]
    constructor
    · intro hx
      exact ⟨x, hx, rfl⟩
    · rintro ⟨y, hy, rfl⟩
      exact hy
  · constructor
    · rintro ⟨hosts, hmem⟩
      by_contra hout
      rw [hno hout] at hmem
      simp at hmem
    · intro hin
      refine ⟨(getServiceHosts c ns).1, ?_⟩
      rw [hyes hin]
      simp [dumpCurrentNamespaceToHost]

/-- Witness for C17: on `demoCluster` an add event 3 seconds after set-up is
ignored and one 4 seconds after it rebuilds. -/
theorem onServiceAdd_debounce_witness :
    onServiceAdd demoCluster demoHost "default" 1700000000 1700000003 ["db-0"] =
      ([], ["db-0"]) ∧
    (onServiceAdd demoCluster demoHost "default" 1700000000 1700000004 ["db-0"]).1 =
      [Effect.DumpHosts (getServiceHosts demoCluster "default").1] :=
  ⟨(onServiceAdd_debounce demoCluster demoHost "default" 1700000000 1700000003
      ["db-0"]).2.2.1 (by decide),
    ((onServiceAdd_debounce demoCluster demoHost "default" 1700000000 1700000004
      ["db-0"]).1 (by decide)).2⟩

/-- Witness for C18: on `demoCluster` an update of the tracked pod `db-1`
rebuilds and an update of `web-0` does not. -/
theorem onPodUpdate_tracked_witness :
    onPodUpdate demoCluster demoHost "default" ⟨"db-1", "10.1.0.5", []⟩ ["db-1"] =
      (Effect.Sleep 5 :: (dumpCurrentNamespaceToHost demoCluster demoHost "default").1,
        (dumpCurrentNamespaceToHost demoCluster demoHost "default").2.1) ∧
    onPodUpdate demoCluster demoHost "default" ⟨"web-0", "10.1.0.7", []⟩ ["db-1"] =
      ([], ["db-1"]) :=
  ⟨(onPodUpdate_tracked demoCluster demoHost "default" ⟨"db-1", "10.1.0.5", []⟩
      ["db-1"]).2.2.1 (by decide),
    (onPodUpdate_tracked demoCluster demoHost "default" ⟨"web-0", "10.1.0.7", []⟩
      ["db-1"]).2.2.2.1 (by decide)⟩


/-! ## Rebuilding twice -/

theorem serviceStep_congr (c1 c2 : Cluster) (ns : String)
    (h2 : c1.GetPodsByLabel = c2.GetPodsByLabel) :
    serviceStep c1 ns = serviceStep c2 ns := by
  funext st s
  unfold serviceStep
  rw [h2]

theorem getServiceHosts_congr (c1 c2 : Cluster) (ns : String)
    (h1 : c1.GetAllServiceInNamespace = c2.GetAllServiceInNamespace)
    (h2 : c1.GetPodsByLabel = c2.GetPodsByLabel) :
    getServiceHosts c1 ns = getServiceHosts c2 ns := by
  unfold getServiceHosts
  rw [h1, serviceStep_congr c1 c2 ns h2]

theorem get_putAll_congr (ps qs : List (String × String))
    (hfp : ∀ a b b', (a, b) ∈ ps → (a, b') ∈ ps → b = b')
    (hfq : ∀ a b b', (a, b) ∈ qs → (a, b') ∈ qs → b = b')
    (hmem : ∀ a b, (a, b) ∈ ps ↔ (a, b) ∈ qs) (k : String) :
    (putAll [] ps).get k = (putAll [] qs).get k := by
  by_cases hk : ∃ v, (k, v) ∈ ps
  · obtain ⟨v, hv⟩ := hk
    rw [get_putAll_of_mem [] ps k v hfp hv, get_putAll_of_mem [] qs k v hfq ((hmem k v).1 hv)]
  · have hp : k ∉ ps.map Prod.fst := by
      intro hin
      obtain ⟨⟨a, b⟩, hab, hak⟩ := List.mem_map.1 hin
      simp only at hak
      exact hk ⟨b, hak ▸ hab⟩
    have hq : k ∉ qs.map Prod.fst := by
      intro hin
      obtain ⟨⟨a, b⟩, hab, hak⟩ := List.mem_map.1 hin
      simp only at hak
      exact hk ⟨b, (hmem k b).2 (hak ▸ hab)⟩
    rw [get_putAll_of_not_mem [] ps k hp, get_putAll_of_not_mem [] qs k hq]

/-- C15: two rebuilds on one cluster state, whatever the order in which `range`
visits the entries of a map in each of them, pass the same mapping to
`DumpHosts` (the same value under every host name, and the same size) and
return the same headless pod list. -/
theorem rebuild_idempotent (c1 c2 : Cluster) (h : Host) (cur target cd : String)
    (hall : c1.GetAllServiceInNamespace = c2.GetAllServiceInNamespace)
    (hpods : c1.GetPodsByLabel = c2.GetPodsByLabel)
    (hperm1 : ∀ m, (c1.rangeOrder m).Perm m) (hperm2 : ∀ m, (c2.rangeOrder m).Perm m)
    (hns : ∀ ns ∈ namespacesToDump cur target, dotFree ns)
    (hsvc : ∀ ns ∈ namespacesToDump cur target,
      ∀ k ∈ (getServiceHosts c1 ns).1.keys, dotFree k) :
    dumpCurrentNamespaceToHost c1 h cur = dumpCurrentNamespaceToHost c2 h cur ∧
    (∀ ns, getServiceHosts c1 ns = getServiceHosts c2 ns) ∧
    (∀ k, (dumpToHostTable c1 cur target cd).get k = (dumpToHostTable c2 cur target cd).get k) ∧
    (dumpToHostTable c1 cur target cd).size = (dumpToHostTable c2 cur target cd).size ∧
    (c1.rangeOrder = c2.rangeOrder →
      dumpToHost c1 h cur target cd = dumpToHost c2 h cur target cd) := by
  have hg : ∀ ns, getServiceHosts c1 ns = getServiceHosts c2 ns :=
    fun ns => getServiceHosts_congr c1 c2 ns hall hpods
  have hsvc2 : ∀ ns ∈ namespacesToDump cur target,
      ∀ k ∈ (getServiceHosts c2 ns).1.keys, dotFree k := by
    intro ns hmem
    rw [← hg ns]
    exact hsvc ns hmem
  have hmem : ∀ a b, (a, b) ∈ (namespacesToDump cur target).flatMap (nsPuts c1 cur cd) ↔
      (a, b) ∈ (namespacesToDump cur target).flatMap (nsPuts c2 cur cd) := by
    intro a b
    simp only [List.mem_flatMap, mem_nsPuts c1 cur cd _ hperm1, mem_nsPuts c2 cur cd _ hperm2,
      hg]
  refine ⟨?_, hg, ?_, ?_, ?_⟩
  · simp [dumpCurrentNamespaceToHost, hg]
  · intro k
    rw [dumpToHostTable_eq, dumpToHostTable_eq]
    exact get_putAll_congr _ _
      (allPuts_functional c1 cur cd _ hperm1 hns hsvc)
      (allPuts_functional c2 cur cd _ hperm2 hns hsvc2) hmem k
  · rw [dumpToHostTable_eq, dumpToHostTable_eq,
      dumpTable_size c1 cur cd _ hperm1 hns hsvc, dumpTable_size c2 cur cd _ hperm2 hns hsvc2]
    simp only [hg]
  · intro horder
    have ht : dumpToHostTable c1 cur target cd = dumpToHostTable c2 cur target cd := by
      unfold dumpToHostTable
      congr 1
      funext hosts ns
      unfold dumpNamespace
      rw [horder, hg]
    simp [dumpToHost, ht]

/-- Witness for C15: `demoCluster`, whose `range` visits entries in reverse,
and the same cluster state visited in insertion order. -/
theorem rebuild_idempotent_witness :
    dumpCurrentNamespaceToHost demoCluster demoHost "default" =
      dumpCurrentNamespaceToHost
        ⟨demoCluster.GetAllServiceInNamespace, demoCluster.GetPodsByLabel,
          demoCluster.GetService, id⟩ demoHost "default" ∧
    (dumpToHostTable demoCluster "default" "default,team-a" "cluster.local").get
        "web.default" =
      (dumpToHostTable
        ⟨demoCluster.GetAllServiceInNamespace, demoCluster.GetPodsByLabel,
          demoCluster.GetService, id⟩ "default" "default,team-a" "cluster.local").get
        "web.default" :=
  ⟨(rebuild_idempotent demoCluster
      ⟨demoCluster.GetAllServiceInNamespace, demoCluster.GetPodsByLabel,
        demoCluster.GetService, id⟩ demoHost "default" "default,team-a" "cluster.local"
      rfl rfl (fun m => List.reverse_perm m) (fun m => List.Perm.refl m)
      (by decide) (by decide)).1,
    (rebuild_idempotent demoCluster
      ⟨demoCluster.GetAllServiceInNamespace, demoCluster.GetPodsByLabel,
        demoCluster.GetService, id⟩ demoHost "default" "default,team-a" "cluster.local"
      rfl rfl (fun m => List.reverse_perm m) (fun m => List.Perm.refl m)
      (by decide) (by decide)).2.2.1 "web.default"⟩


/-! ## `RedirectService`: repeated port numbers and the sentinel -/

theorem RedirectService_port_ne_sentinel (c : Cluster) (ns serviceName : String)
    (localPort remotePort : Int) (podName : String) (podPort port : Int)
    (h : RedirectService c ns serviceName localPort remotePort =
      Redirect.SetupPortForwardToLocal podName podPort port) : podPort ≠ -1 := by
  unfold RedirectService at h
  cases hs : c.GetService serviceName ns with
  | error e => simp [hs] at h
  | ok svc =>
    simp only [hs] at h
    by_cases ht : (findTargetPort svc.Ports remotePort).Type_ = -1
    · simp [ht] at h
    · simp only [ht, if_false] at h
      cases hp : c.GetPodsByLabel svc.Selector ns with
      | error e => simp [hp] at h
      | ok pods =>
        cases pods with
        | nil => simp [hp] at h
        | cons pod0 rest =>
          simp only [hp] at h
          by_cases h0 : (findTargetPort svc.Ports remotePort).Type_ = 0
          · simp only [h0, if_true] at h
            by_cases hv : (findTargetPort svc.Ports remotePort).IntVal = -1
            · simp [hv] at h
            · simp only [hv, if_false, Redirect.SetupPortForwardToLocal.injEq] at h
              rw [← h.2.1]
              exact hv
          · simp only [h0, if_false] at h
            by_cases hv : containerLoop pod0.Containers
                (findTargetPort svc.Ports remotePort).StrVal (-1) = -1
            · simp [hv] at h
            · simp only [hv, if_false, Redirect.SetupPortForwardToLocal.injEq] at h
              rw [← h.2.1]
              exact hv

/-- C19: of several declared ports with the number `remotePort`,
`RedirectService` resolves the target of the last one in list order (the one
declaration when there is only one); a numeric target `-1`, and a named target
whose first matching container port is `-1`, give the "not fit for any pod"
error; and the pod port of a call of the forwarding primitive is never `-1`. -/
theorem RedirectService_last_declaration (c : Cluster) (ns serviceName : String)
    (localPort remotePort : Int) (svc : Service) (pre post : List ServicePort)
    (p : ServicePort) (pod0 : Pod) (rest : List Pod)
    (hsvc : c.GetService serviceName ns = .ok svc)
    (hports : svc.Ports = pre ++ p :: post) (hp : p.Port = remotePort)
    (hlast : ∀ q ∈ post, q.Port ≠ remotePort)
    (hpods : c.GetPodsByLabel svc.Selector ns = .ok (pod0 :: rest)) :
    findTargetPort svc.Ports remotePort = p.TargetPort ∧
    (p.TargetPort.Type_ = 0 → p.TargetPort.IntVal ≠ -1 →
      RedirectService c ns serviceName localPort remotePort =
        Redirect.SetupPortForwardToLocal pod0.Name p.TargetPort.IntVal localPort) ∧
    (p.TargetPort.Type_ = 0 → p.TargetPort.IntVal = -1 →
      RedirectService c ns serviceName localPort remotePort =
        Redirect.error ("port " ++ toString remotePort ++
          " not fit for any pod of service " ++ serviceName)) ∧
    (p.TargetPort.Type_ = 1 →
      ∀ (before after : List ContainerPort) (cp : ContainerPort),
        pod0.Containers.flatMap Container.Ports = before ++ cp :: after →
        (∀ x ∈ before, x.Name ≠ p.TargetPort.StrVal) → cp.Name = p.TargetPort.StrVal →
        cp.ContainerPort = -1 →
        RedirectService c ns serviceName localPort remotePort =
          Redirect.error ("port " ++ toString remotePort ++
            " not fit for any pod of service " ++ serviceName)) ∧
    (∀ (podName : String) (podPort port : Int),
      RedirectService c ns serviceName localPort remotePort =
        Redirect.SetupPortForwardToLocal podName podPort port → podPort ≠ -1) := by
  have htp : findTargetPort svc.Ports remotePort = p.TargetPort := by
    rw [hports]
    exact findTargetPort_last pre post p remotePort hp hlast
  refine ⟨htp, ?_, ?_, ?_, ?_⟩
  · intro h0 hne
    unfold RedirectService
    simp only [hsvc, htp, h0, hpods]
    simp [hne]
  · intro h0 heq
    unfold RedirectService
    simp only [hsvc, htp, h0, hpods]
    simp [heq]
  · intro h1 before after cp hflat hb hcp heq
    unfold RedirectService
    simp only [hsvc, htp, h1, hpods]
    rw [containerLoop_flat, hflat, portLoop_first before after cp _ hb hcp]
    simp [heq]
  · intro podName podPort port hfw
    exact RedirectService_port_ne_sentinel c ns serviceName localPort remotePort podName
      podPort port hfw

/-- Witness for C19: `dnsService` declares the port 53 twice, with the targets
5353 and 5354, and the forward goes to 5354. -/
theorem RedirectService_last_declaration_witness :
    findTargetPort dnsService.Ports 53 = ⟨0, 5354, ""⟩ ∧
    RedirectService dnsCluster "default" "dns" 1053 53 =
      Redirect.SetupPortForwardToLocal "dns-0" 5354 1053 :=
  ⟨(RedirectService_last_declaration dnsCluster "default" "dns" 1053 53 dnsService
      [⟨53, ⟨0, 5353, ""⟩⟩] [] ⟨53, ⟨0, 5354, ""⟩⟩ ⟨"dns-0", "10.1.0.53", []⟩ []
      rfl rfl rfl (by decide) rfl).1,
    (RedirectService_last_declaration dnsCluster "default" "dns" 1053 53 dnsService
      [⟨53, ⟨0, 5353, ""⟩⟩] [] ⟨53, ⟨0, 5354, ""⟩⟩ ⟨"dns-0", "10.1.0.53", []⟩ []
      rfl rfl rfl (by decide) rfl).2.1 rfl (by decide)⟩

/-! ## `MapPut` -/

theorem readMap_modify_same (heap : MapHeap) (a : Nat) (f : GoMap → GoMap)
    (ha : a < heap.length) :
    readMap (heap.modify f a) (some a) = f (readMap heap (some a)) := by
  simp [readMap, List.getD_eq_getElem?_getD, List.getElem?_modify, List.getElem?_eq_getElem ha]

theorem readMap_modify_other (heap : MapHeap) (a b : Nat) (f : GoMap → GoMap) (hb : b ≠ a) :
    readMap (heap.modify f a) (some b) = readMap heap (some b) := by
  simp only [readMap, List.getD_eq_getElem?_getD, List.getElem?_modify]
  simp [Ne.symm hb]

/-- C20: on a non-nil map, `MapPut` sets the key `k` to `v` in the caller's
map and leaves its other keys, and every other map, as they were; on a nil
map, the caller's map still reads as nil (empty) afterwards and no map that
existed before the call is changed. -/
theorem MapPut_effect (heap : MapHeap) (k v : String) :
    (∀ a, a < heap.length →
      readMap (MapPut heap (some a) k v) (some a) = (readMap heap (some a)).put k v ∧
      (readMap (MapPut heap (some a) k v) (some a)).get k = some v ∧
      (∀ k', k' ≠ k →
        (readMap (MapPut heap (some a) k v) (some a)).get k' =
          (readMap heap (some a)).get k') ∧
      (∀ b, b ≠ a → readMap (MapPut heap (some a) k v) (some b) = readMap heap (some b))) ∧
    readMap (MapPut heap none k v) none = [] ∧
    (readMap (MapPut heap none k v) none).get k = none ∧
    (∀ b, b < heap.length → readMap (MapPut heap none k v) (some b) = readMap heap (some b)) ∧
    MapPut heap none k v = heap ++ [[(k, v)]] := by
  refine ⟨?_, rfl, rfl, ?_, ?_⟩
  · intro a ha
    have hsame : readMap (MapPut heap (some a) k v) (some a) = (readMap heap (some a)).put k v :=
      readMap_modify_same heap a _ ha
    refine ⟨hsame, ?_, ?_, ?_⟩
    · rw [hsame, GoMap.get_put]
      simp
    · intro k' hk'
      rw [hsame, GoMap.get_put]
      simp [Ne.symm hk']
    · intro b hb
      exact readMap_modify_other heap a b _ hb
  · intro b hb
    have hne : b ≠ heap.length := Nat.ne_of_lt hb
    have h1 : readMap (MapPut heap none k v) (some b) = readMap (heap ++ [[]]) (some b) :=
      readMap_modify_other (heap ++ [[]]) heap.length b _ hne
    rw [h1]
    simp [readMap, List.getD_eq_getElem?_getD, List.getElem?_append_left hb]
  · unfold MapPut
    simp [List.modify_eq_set_get, GoMap.put]

/-- Witness for C20: a heap with one map, written through its address and
through a nil map value. -/
theorem MapPut_effect_witness :
    readMap (MapPut [[("app", "web")]] (some 0) "tier" "front") (some 0) =
      GoMap.put (readMap [[("app", "web")]] (some 0)) "tier" "front" ∧
    readMap (MapPut [[("app", "web")]] none "tier" "front") (some 0) =
      readMap [[("app", "web")]] (some 0) ∧
    readMap (MapPut [[("app", "web")]] none "tier" "front") none = [] :=
  ⟨((MapPut_effect [[("app", "web")]] "tier" "front").1 0 (by decide)).1,
    (MapPut_effect [[("app", "web")]] "tier" "front").2.2.2.1 0 (by decide),
    (MapPut_effect [[("app", "web")]] "tier" "front").2.1⟩


end KtConnect
